import Mathlib

/-!
Verification development for the Stremax-Lang execution pipeline
(tokenizer in pkg/lexer, parser in pkg/parser, tree-walking evaluator in
pkg/interpreter), shallowly embedded in Lean 4.

Modelling conventions, used throughout:
* Go `int64` values are Lean `Int`s; every arithmetic operation applies
  `wrap64` (two's-complement wrap-around into [-2^63, 2^63)), matching the
  Go spec for signed integer overflow.
* Go interfaces that may be `nil` (`parser.Expression`, `parser.Statement`,
  `interpreter.Object`) become `Option` types; `none` models a nil
  interface value.  A nil typed pointer stored in a non-nil interface
  (Go's `*LetStatement(nil)` gotcha in `ParseProgram`) is modelled by the
  surrounding `Option` as well, see `parseStatement`.
* Heap allocation is explicit: every `interpreter.Object` carries the
  allocation counter value at its creation (`Obj.id`); Go pointer equality
  of two objects is equality of their ids.  The shared global `NULL`
  object has the reserved id 0 and the counter starts at 1.
* `Environment` values live in an explicit heap (`St.envs`, a list indexed
  by environment id) because Go mutates environments through shared
  pointers (closures capture them); `St.cur` is the interpreter's current
  environment (`Interpreter.env`).
* Recursion that is unbounded in Go (parsing, evaluation, comment
  skipping) takes an explicit fuel argument; running out of fuel yields a
  distinguished artifact (`ErrType.outOfFuel` for the evaluator, an EOF
  token for the lexer, a nil result without a diagnostic for the parser)
  that concrete computations never reach when given ample fuel.
* Character classes (`unicode.IsSpace`, `IsLetter`, `IsDigit`) are
  modelled on the ASCII/Latin-1 range, which covers every program and
  token of this development.
-/

/-- Token kinds, from pkg/lexer/token.go.  Go represents a `TokenType` as
its display string; the embedding uses an inductive tag plus `ttStr` for
the display string (the two are interconvertible because the constants are
pairwise distinct).  The constants `AND` and `OR` are used by the lexer
and are modelled from their lexer literals, their defining revision of
token.go not being part of the snapshot. -/
inductive TokenType where
  | ILLEGAL | EOF
  | IDENT | INT | STRING
  | ASSIGN | PLUS | MINUS | BANG | ASTERISK | SLASH
  | LT | GT | EQ | NotEq | AND | OR
  | COMMA | SEMICOLON | COLON | DOT
  | LPAREN | RPAREN | LBRACE | RBRACE | LBRACKET | RBRACKET
  | FUNCTION | CONTRACT | STATE | LET | TRUE | FALSE | IF | ELSE
  | RETURN | REQUIRE | EMIT | EVENT | ADDRESS | MAP | CONSTRUCTOR
deriving DecidableEq, Repr

/-- Display string of a token type (the string value of the Go constant),
used in parser diagnostics via `%s` formatting. -/
def ttStr : TokenType → String
  | .ILLEGAL => "ILLEGAL" | .EOF => "EOF"
  | .IDENT => "IDENT" | .INT => "INT" | .STRING => "STRING"
  | .ASSIGN => "=" | .PLUS => "+" | .MINUS => "-" | .BANG => "!"
  | .ASTERISK => "*" | .SLASH => "/"
  | .LT => "<" | .GT => ">" | .EQ => "==" | .NotEq => "!="
  | .AND => "&&" | .OR => "||"
  | .COMMA => "," | .SEMICOLON => ";" | .COLON => ":" | .DOT => "."
  | .LPAREN => "(" | .RPAREN => ")" | .LBRACE => "\x7b" | .RBRACE => "\x7d"
  | .LBRACKET => "[" | .RBRACKET => "]"
  | .FUNCTION => "FUNCTION" | .CONTRACT => "CONTRACT" | .STATE => "STATE"
  | .LET => "LET" | .TRUE => "TRUE" | .FALSE => "FALSE"
  | .IF => "IF" | .ELSE => "ELSE" | .RETURN => "RETURN"
  | .REQUIRE => "REQUIRE" | .EMIT => "EMIT" | .EVENT => "EVENT"
  | .ADDRESS => "ADDRESS" | .MAP => "MAP" | .CONSTRUCTOR => "CONSTRUCTOR"

/-- A lexical token: kind, literal text and source position
(pkg/lexer/token.go, `Token`). -/
structure Token where
  type : TokenType
  literal : String
  line : Nat
  column : Nat
deriving DecidableEq, Repr

/-- `LookupIdent` from pkg/lexer/token.go: keyword table consulted after an
identifier has been read in full. -/
def LookupIdent (ident : String) : TokenType :=
  match ident with
  | "function" => .FUNCTION
  | "contract" => .CONTRACT
  | "state" => .STATE
  | "let" => .LET
  | "true" => .TRUE
  | "false" => .FALSE
  | "if" => .IF
  | "else" => .ELSE
  | "return" => .RETURN
  | "require" => .REQUIRE
  | "emit" => .EMIT
  | "event" => .EVENT
  | "Address" => .ADDRESS
  | "Map" => .MAP
  | "constructor" => .CONSTRUCTOR
  | _ => .IDENT

/-- Lexer state: the not-yet-consumed input (`chs.headD nulChar` is the
Go lexer's current character `l.ch`) plus the line/column counters. -/
structure LexSt where
  chs : List Char
  line : Nat
  column : Nat
deriving Repr

/-- The NUL sentinel the Go lexer uses for end of input. -/
def nulChar : Char := Char.ofNat 0

/-- `New` from pkg/lexer/lexer.go: position the lexer on the first
character (the initial `readChar` leaves column = 1). -/
def lexNew (input : String) : LexSt :=
  { chs := input.data, line := 1, column := 1 }

/-- `unicode.IsSpace` restricted to the Latin-1 range (the only characters
this development feeds to it). -/
def goIsSpace (c : Char) : Bool :=
  c = ' ' || c = '\t' || c = '\n' || c = Char.ofNat 11 || c = Char.ofNat 12 ||
  c = '\r' || c = Char.ofNat 0x85 || c = Char.ofNat 0xA0

/-- `isLetter` from the lexer: a letter or underscore (ASCII range). -/
def isLetter (c : Char) : Bool := c.isAlpha || c = '_'

/-- `isDigit` from the lexer (ASCII range). -/
def isDigit (c : Char) : Bool := c.isDigit

/-- `skipWhitespace`: consume whitespace, tracking line/column (a newline
resets the column; the subsequent `readChar` makes it 1). -/
def skipWhitespace : List Char → Nat → Nat → List Char × Nat × Nat
  | [], line, col => ([], line, col)
  | c :: rest, line, col =>
    if goIsSpace c then
      if c = '\n' then skipWhitespace rest (line + 1) 1
      else skipWhitespace rest line (col + 1)
    else (c :: rest, line, col)

/-- `skipLineComment`: the second `/` and everything up to (but not
including) the newline or end of input is consumed. -/
def skipLineComment : List Char → Nat → List Char × Nat
  | [], col => ([], col + 1)
  | c :: rest, col =>
    if c = '\n' then (c :: rest, col)
    else skipLineComment rest (col + 1)

/-- Body loop of `skipBlockComment`: consume until `*/` (also consumed) or
end of input; an unterminated block comment consumes the rest of the input
without raising an error. -/
def skipBlockCommentLoop : List Char → Nat → Nat → List Char × Nat × Nat
  | [], line, col => ([], line, col)
  | c :: rest, line, col =>
    if c = '*' && rest.headD nulChar = '/' then
      (rest.tail, line, col + 2)
    else if c = '\n' then
      skipBlockCommentLoop rest (line + 1) 1
    else
      skipBlockCommentLoop rest line (col + 1)

/-- `readIdentifier` body: consume letters/underscores, and digits after
the first character; returns the consumed characters and the rest. -/
def readIdentLoop : List Char → List Char × List Char
  | [] => ([], [])
  | c :: rest =>
    if isLetter c || isDigit c then
      match readIdentLoop rest with
      | (taken, left) => (c :: taken, left)
    else ([], c :: rest)

/-- `readNumber` body: consume a maximal digit run. -/
def readNumberLoop : List Char → List Char × List Char
  | [] => ([], [])
  | c :: rest =>
    if isDigit c then
      match readNumberLoop rest with
      | (taken, left) => (c :: taken, left)
    else ([], c :: rest)

/-- `readString` body: after the opening quote, consume up to the closing
quote or a NUL character (both left in place for the caller) or the end of
input.  At end of input the Go code returns `input[position:l.position]`
where `position` no longer advances, so the very last character read is
NOT part of the literal: hence `dropLast` in the exhausted case. -/
def readStringLoop : List Char → Nat → Nat → List Char → List Char × List Char × Nat × Nat
  | [], line, col, acc => (acc.dropLast, [], line, col)
  | c :: rest, line, col, acc =>
    if c = '"' || c = nulChar then (acc, c :: rest, line, col)
    else if c = '\n' then readStringLoop rest (line + 1) 1 (acc.concat c)
    else readStringLoop rest line (col + 1) (acc.concat c)

/-- `NextToken` from pkg/lexer/lexer.go.  The fuel only bounds the
recursive re-entry after a comment (each re-entry consumes input, so
`chs.length + 1` is always enough; see `nextTokenTotal`).  Each branch
mirrors the Go switch; the trailing `readChar` of the Go code is the
`.tail` / column bump on the returned state. -/
def nextToken : Nat → LexSt → Token × LexSt
  | 0, st => ({ type := .EOF, literal := "", line := st.line, column := st.column }, st)
  | fuel + 1, st0 =>
    match skipWhitespace st0.chs st0.line st0.column with
    | (chs, line, col) =>
      let ch := chs.headD nulChar
      let rest := chs.tail
      let peek := rest.headD nulChar
      let one : TokenType → Token × LexSt := fun tt =>
        ({ type := tt, literal := String.singleton ch, line := line, column := col },
         { chs := rest, line := line, column := col + 1 })
      let two : TokenType → Token × LexSt := fun tt =>
        ({ type := tt, literal := String.singleton ch ++ String.singleton peek,
           line := line, column := col },
         { chs := rest.tail, line := line, column := col + 2 })
      if ch = '=' then
        if peek = '=' then two .EQ else one .ASSIGN
      else if ch = '+' then one .PLUS
      else if ch = '-' then one .MINUS
      else if ch = '!' then
        if peek = '=' then two .NotEq else one .BANG
      else if ch = '/' then
        if peek = '/' then
          match skipLineComment rest.tail (col + 2) with
          | (chs2, col2) => nextToken fuel { chs := chs2, line := line, column := col2 }
        else if peek = '*' then
          match skipBlockCommentLoop rest.tail line (col + 2) with
          | (chs2, line2, col2) => nextToken fuel { chs := chs2, line := line2, column := col2 }
        else one .SLASH
      else if ch = '*' then one .ASTERISK
      else if ch = '<' then one .LT
      else if ch = '>' then one .GT
      else if ch = '&' then
        if peek = '&' then two .AND else one .ILLEGAL
      else if ch = '|' then
        if peek = '|' then two .OR else one .ILLEGAL
      else if ch = ';' then one .SEMICOLON
      else if ch = ':' then one .COLON
      else if ch = ',' then one .COMMA
      else if ch = '(' then one .LPAREN
      else if ch = ')' then one .RPAREN
      else if ch = Char.ofNat 123 then one .LBRACE
      else if ch = Char.ofNat 125 then one .RBRACE
      else if ch = '[' then one .LBRACKET
      else if ch = ']' then one .RBRACKET
      else if ch = '"' then
        match readStringLoop rest line (col + 1) [] with
        | (content, chs2, line2, col2) =>
          ({ type := .STRING, literal := String.mk content, line := line, column := col },
           { chs := chs2.tail, line := line2, column := col2 + 1 })
      else if ch = '.' then one .DOT
      else if ch = nulChar then
        ({ type := .EOF, literal := "", line := line, column := col },
         { chs := rest, line := line, column := col + 1 })
      else if isLetter ch then
        match readIdentLoop chs with
        | (taken, left) =>
          let lit := String.mk taken
          ({ type := LookupIdent lit, literal := lit, line := line, column := col },
           { chs := left, line := line, column := col + taken.length })
      else if isDigit ch then
        match readNumberLoop chs with
        | (taken, left) =>
          ({ type := .INT, literal := String.mk taken, line := line, column := col },
           { chs := left, line := line, column := col + taken.length })
      else one .ILLEGAL

/-- `NextToken` with always-ample fuel: every comment re-entry consumes at
least one character, so `chs.length + 1` re-entries never run out. -/
def nextTokenTotal (st : LexSt) : Token × LexSt :=
  nextToken (st.chs.length + 1) st

/-- `TypeExpression` from pkg/parser/ast.go: a base type name or a
`Map<K, V>` form; the key/value children may be nil. -/
inductive TypeExpr where
  | mk (token : Token) (type : String) (keyType : Option TypeExpr) (valueType : Option TypeExpr)

/-- `Identifier` from pkg/parser/ast.go. -/
structure Ident where
  token : Token
  value : String

/-- `ParameterStatement` from pkg/parser/ast.go: a typed parameter of a
function/constructor/event (the type child may be nil). -/
structure Param where
  token : Token
  name : Ident
  type : Option TypeExpr

mutual
/-- Expression nodes from pkg/parser/ast.go.  `Option Expr` children model
nil `Expression` interface values produced by the error paths of the
parser.  `funcLit`, `arrayLit` and `hashLit` (`FunctionLiteral`,
`ArrayLiteral`, `HashLiteral`) are consumed by pkg/interpreter but their
defining AST revision is not in the snapshot; their fields are modelled
from the evaluator's accesses (`Parameters`/`ReturnType`/`Body`,
`Elements`, `Pairs`). -/
inductive Expr where
  | identifier (token : Token) (value : String)
  | integerLit (token : Token) (value : Int)
  | stringLit (token : Token) (value : String)
  | booleanLit (token : Token) (value : Bool)
  | prefixE (token : Token) (operator : String) (right : Option Expr)
  | infixE (token : Token) (left : Option Expr) (operator : String) (right : Option Expr)
  | ifE (token : Token) (condition : Option Expr) (consequence : Block) (alternative : Option Block)
  | callE (token : Token) (function : Option Expr) (arguments : List (Option Expr))
  | indexE (token : Token) (left : Option Expr) (index : Option Expr)
  | dotE (token : Token) (left : Option Expr) (right : Option Expr)
  | funcLit (token : Token) (parameters : List Param) (returnType : Option TypeExpr) (body : Block)
  | arrayLit (token : Token) (elements : List (Option Expr))
  | hashLit (token : Token) (pairs : List (Option Expr × Option Expr))

/-- Statement nodes from pkg/parser/ast.go.  A `List (Option Stmt)` entry
that is `none` models a nil typed statement pointer wrapped in a non-nil
`Statement` interface (which passes Go's `stmt != nil` test in
`ParseProgram` and `parseBlockStatement`). -/
inductive Stmt where
  | letS (token : Token) (name : Ident) (typeAnn : Option TypeExpr) (value : Option Expr)
  | returnS (token : Token) (returnValue : Option Expr)
  | exprS (token : Token) (expression : Option Expr)
  | blockSt (b : Block)
  | contractS (token : Token) (name : Ident) (stateBlock : Option (Token × Block)) (body : Block)
  | functionS (token : Token) (name : Ident) (parameters : List Param)
      (returnType : Option TypeExpr) (body : Block)
  | constructorS (token : Token) (parameters : List Param) (body : Block)
  | eventS (token : Token) (name : Ident) (parameters : List Param)
  | requireS (token : Token) (condition : Option Expr) (message : Option Expr)
  | emitS (token : Token) (eventName : Ident) (arguments : List (Option Expr))

/-- `BlockStatement` from pkg/parser/ast.go. -/
inductive Block where
  | mk (token : Token) (statements : List (Option Stmt))
end

/-- `Program`: the root AST node. -/
structure Program where
  statements : List (Option Stmt)

def Block.token : Block → Token
  | .mk t _ => t

def Block.statements : Block → List (Option Stmt)
  | .mk _ s => s

/-- Accumulate the value of a digit string in the given base; fails on an
out-of-range digit. -/
def digitsVal (base : Nat) : List Char → Nat → Option Nat
  | [], acc => some acc
  | c :: rest, acc =>
    let d := c.toNat - 48
    if c.isDigit && d < base then digitsVal base rest (acc * base + d)
    else none

/-- `strconv.ParseInt(lit, 0, 64)` restricted to the literals the lexer
can produce (non-empty decimal digit runs): base 0 interprets a leading
`0` digit as octal (so `05` parses as 5 and `09` is an error), and a value
that does not fit in int64 is an error. -/
def parseIntGo (s : String) : Option Int :=
  match s.data with
  | [] => none
  | ['0'] => some 0
  | '0' :: rest =>
    match digitsVal 8 rest 0 with
    | some v => if v < 2 ^ 63 then some (Int.ofNat v) else none
    | none => none
  | ds =>
    match digitsVal 10 ds 0 with
    | some v => if v < 2 ^ 63 then some (Int.ofNat v) else none
    | none => none

/-- Operator precedence levels from pkg/parser/parser.go (the iota block:
LOWEST=1 … DOT=9). -/
def LOWEST : Nat := 1
def EQUALS : Nat := 2
def LESSGREATER : Nat := 3
def SUM : Nat := 4
def PRODUCT : Nat := 5
def PREFIX : Nat := 6
def CALL : Nat := 7
def INDEX : Nat := 8
def DOT : Nat := 9

/-- The `precedences` map from pkg/parser/parser.go.  `&&` and `||` have
no entry, so they fall back to LOWEST in `peekPrecedence` /
`curPrecedence`. -/
def precedences : TokenType → Option Nat
  | .EQ => some EQUALS
  | .NotEq => some EQUALS
  | .LT => some LESSGREATER
  | .GT => some LESSGREATER
  | .PLUS => some SUM
  | .MINUS => some SUM
  | .SLASH => some PRODUCT
  | .ASTERISK => some PRODUCT
  | .LPAREN => some CALL
  | .LBRACKET => some INDEX
  | .DOT => some DOT
  | _ => none

/-- Parser state: the lexer it pulls from, the diagnostics collected so
far, and the two-token lookahead window (pkg/parser/parser.go, `Parser`).
The pre-`New` zero tokens are never observed (New advances twice). -/
structure PSt where
  lx : LexSt
  errors : List String
  curToken : Token
  peekToken : Token

/-- `Parser.nextToken`: slide the lookahead window by one lexer token. -/
def pNextToken (p : PSt) : PSt :=
  match nextTokenTotal p.lx with
  | (t, lx2) => { lx := lx2, errors := p.errors, curToken := p.peekToken, peekToken := t }

/-- `parser.New` (the token-window part): read two tokens so that both
`curToken` and `peekToken` are set.  The prefix/infix handler tables that
`New` registers are embedded as the direct dispatches inside
`parseExpression` and `parseExpressionLoop` below. -/
def parserNew (source : String) : PSt :=
  pNextToken (pNextToken
    { lx := lexNew source, errors := [],
      curToken := { type := .ILLEGAL, literal := "", line := 0, column := 0 },
      peekToken := { type := .ILLEGAL, literal := "", line := 0, column := 0 } })

def curTokenIs (p : PSt) (t : TokenType) : Bool := p.curToken.type = t

def peekTokenIs (p : PSt) (t : TokenType) : Bool := p.peekToken.type = t

/-- `peekError`: record "expected next token to be X, got Y instead". -/
def peekError (p : PSt) (t : TokenType) : PSt :=
  { p with errors := p.errors ++
      ["expected next token to be " ++ ttStr t ++ ", got " ++ ttStr p.peekToken.type ++ " instead"] }

/-- `expectPeek`: advance over an expected token, else record a
diagnostic. -/
def expectPeek (p : PSt) (t : TokenType) : Bool × PSt :=
  if peekTokenIs p t then (true, pNextToken p) else (false, peekError p t)

/-- `noPrefixParseFnError`. -/
def noPrefixParseFnError (p : PSt) (t : TokenType) : PSt :=
  { p with errors := p.errors ++ ["no prefix parse function for " ++ ttStr t ++ " found"] }

def peekPrecedence (p : PSt) : Nat := (precedences p.peekToken.type).getD LOWEST

def curPrecedence (p : PSt) : Nat := (precedences p.curToken.type).getD LOWEST

mutual
/-- `parseStatement`: fixed dispatch on the leading token
(pkg/parser/parser.go).  The `Option Stmt` result is `none` exactly when
the Go function returns a nil typed statement pointer; the callers
(`ParseProgram`, `parseBlockStatement`, the contract body loop) append the
result regardless, because in Go a nil typed pointer wrapped in the
`Statement` interface passes the `stmt != nil` test. -/
def parseStatement : Nat → PSt → Option Stmt × PSt
  | 0, p => (none, p)
  | fuel + 1, p =>
    match p.curToken.type with
    | .LET => parseLetStatement fuel p
    | .RETURN => parseReturnStatement fuel p
    | .CONTRACT => parseContractStatement fuel p
    | .FUNCTION => parseFunctionStatement fuel p
    | .CONSTRUCTOR => parseConstructorStatement fuel p
    | .EVENT => parseEventStatement fuel p
    | .REQUIRE => parseRequireStatement fuel p
    | .EMIT => parseEmitStatement fuel p
    | _ => parseExpressionStatement fuel p

/-- `parseLetStatement`: `let <ident> (: <type>)? = <expr> ;?`. -/
def parseLetStatement : Nat → PSt → Option Stmt × PSt
  | 0, p => (none, p)
  | fuel + 1, p =>
    let tok := p.curToken
    let (ok, p) := expectPeek p .IDENT
    if !ok then (none, p) else
    let name : Ident := { token := p.curToken, value := p.curToken.literal }
    let (typeAnn, p) :=
      if peekTokenIs p .COLON then
        parseTypeExpression fuel (pNextToken (pNextToken p))
      else (none, p)
    let (ok, p) := expectPeek p .ASSIGN
    if !ok then (none, p) else
    let p := pNextToken p
    let (value, p) := parseExpression fuel LOWEST p
    let p := if peekTokenIs p .SEMICOLON then pNextToken p else p
    (some (.letS tok name typeAnn value), p)

/-- `parseReturnStatement`: `return <expr> ;?`. -/
def parseReturnStatement : Nat → PSt → Option Stmt × PSt
  | 0, p => (none, p)
  | fuel + 1, p =>
    let tok := p.curToken
    let p := pNextToken p
    let (value, p) := parseExpression fuel LOWEST p
    let p := if peekTokenIs p .SEMICOLON then pNextToken p else p
    (some (.returnS tok value), p)

/-- `parseContractStatement`: contract header plus a body of statements;
a `state` block is parsed separately into the `stateBlock` field
(re-assigned on every `state` occurrence, exactly as the Go code does). -/
def parseContractStatement : Nat → PSt → Option Stmt × PSt
  | 0, p => (none, p)
  | fuel + 1, p =>
    let tok := p.curToken
    let (ok, p) := expectPeek p .IDENT
    if !ok then (none, p) else
    let name : Ident := { token := p.curToken, value := p.curToken.literal }
    let (ok, p) := expectPeek p .LBRACE
    if !ok then (none, p) else
    let bodyTok := p.curToken
    let p := pNextToken p
    let (stateBlock, stmts, p) := parseContractBodyLoop fuel none [] p
    (some (.contractS tok name stateBlock (.mk bodyTok stmts)), p)

/-- Body loop of `parseContractStatement`: until `}` or EOF. -/
def parseContractBodyLoop : Nat → Option (Token × Block) → List (Option Stmt) → PSt →
    Option (Token × Block) × List (Option Stmt) × PSt
  | 0, sb, acc, p => (sb, acc, p)
  | fuel + 1, sb, acc, p =>
    if !(curTokenIs p .RBRACE) && !(curTokenIs p .EOF) then
      if curTokenIs p .STATE then
        let (sb2, p) := parseStateBlockStatement fuel p
        parseContractBodyLoop fuel sb2 acc (pNextToken p)
      else
        let (s, p) := parseStatement fuel p
        parseContractBodyLoop fuel sb (acc ++ [s]) (pNextToken p)
    else (sb, acc, p)

/-- `parseStateBlockStatement`: `state { ... }`. -/
def parseStateBlockStatement : Nat → PSt → Option (Token × Block) × PSt
  | 0, p => (none, p)
  | fuel + 1, p =>
    let tok := p.curToken
    let (ok, p) := expectPeek p .LBRACE
    if !ok then (none, p) else
    let (body, p) := parseBlockStatement fuel p
    (some (tok, body), p)

/-- `parseFunctionStatement`: `function <ident>(<params>) (: <type>)? { ... }`. -/
def parseFunctionStatement : Nat → PSt → Option Stmt × PSt
  | 0, p => (none, p)
  | fuel + 1, p =>
    let tok := p.curToken
    let (ok, p) := expectPeek p .IDENT
    if !ok then (none, p) else
    let name : Ident := { token := p.curToken, value := p.curToken.literal }
    let (ok, p) := expectPeek p .LPAREN
    if !ok then (none, p) else
    let (params, p) := parseParameters fuel p
    let (rt, p) :=
      if peekTokenIs p .COLON then
        parseTypeExpression fuel (pNextToken (pNextToken p))
      else (none, p)
    let (ok, p) := expectPeek p .LBRACE
    if !ok then (none, p) else
    let (body, p) := parseBlockStatement fuel p
    (some (.functionS tok name params rt body), p)

/-- `parseConstructorStatement`: `constructor(<params>) { ... }`. -/
def parseConstructorStatement : Nat → PSt → Option Stmt × PSt
  | 0, p => (none, p)
  | fuel + 1, p =>
    let tok := p.curToken
    let (ok, p) := expectPeek p .LPAREN
    if !ok then (none, p) else
    let (params, p) := parseParameters fuel p
    let (ok, p) := expectPeek p .LBRACE
    if !ok then (none, p) else
    let (body, p) := parseBlockStatement fuel p
    (some (.constructorS tok params body), p)

/-- `parseEventStatement`: `event <ident>(<params>) ;?`. -/
def parseEventStatement : Nat → PSt → Option Stmt × PSt
  | 0, p => (none, p)
  | fuel + 1, p =>
    let tok := p.curToken
    let (ok, p) := expectPeek p .IDENT
    if !ok then (none, p) else
    let name : Ident := { token := p.curToken, value := p.curToken.literal }
    let (ok, p) := expectPeek p .LPAREN
    if !ok then (none, p) else
    let (params, p) := parseParameters fuel p
    let p := if peekTokenIs p .SEMICOLON then pNextToken p else p
    (some (.eventS tok name params), p)

/-- `parseRequireStatement`: `require(<cond>, <message>) ;?` — note that
the comma and the message expression are mandatory (`expectPeek(COMMA)`). -/
def parseRequireStatement : Nat → PSt → Option Stmt × PSt
  | 0, p => (none, p)
  | fuel + 1, p =>
    let tok := p.curToken
    let (ok, p) := expectPeek p .LPAREN
    if !ok then (none, p) else
    let p := pNextToken p
    let (cond, p) := parseExpression fuel LOWEST p
    let (ok, p) := expectPeek p .COMMA
    if !ok then (none, p) else
    let p := pNextToken p
    let (msg, p) := parseExpression fuel LOWEST p
    let (ok, p) := expectPeek p .RPAREN
    if !ok then (none, p) else
    let p := if peekTokenIs p .SEMICOLON then pNextToken p else p
    (some (.requireS tok cond msg), p)

/-- `parseEmitStatement`: `emit <ident>(<args>) ;?`. -/
def parseEmitStatement : Nat → PSt → Option Stmt × PSt
  | 0, p => (none, p)
  | fuel + 1, p =>
    let tok := p.curToken
    let (ok, p) := expectPeek p .IDENT
    if !ok then (none, p) else
    let name : Ident := { token := p.curToken, value := p.curToken.literal }
    let (ok, p) := expectPeek p .LPAREN
    if !ok then (none, p) else
    let (args, p) :=
      if !(peekTokenIs p .RPAREN) then
        let p := pNextToken p
        let (a1, p) := parseExpression fuel LOWEST p
        parseEmitArgsLoop fuel [a1] p
      else ([], p)
    let (ok, p) := expectPeek p .RPAREN
    if !ok then (none, p) else
    let p := if peekTokenIs p .SEMICOLON then pNextToken p else p
    (some (.emitS tok name args), p)

/-- Argument loop of `parseEmitStatement`: `, <expr>` repetitions. -/
def parseEmitArgsLoop : Nat → List (Option Expr) → PSt → List (Option Expr) × PSt
  | 0, acc, p => (acc, p)
  | fuel + 1, acc, p =>
    if peekTokenIs p .COMMA then
      let p := pNextToken (pNextToken p)
      let (a, p) := parseExpression fuel LOWEST p
      parseEmitArgsLoop fuel (acc ++ [a]) p
    else (acc, p)

/-- `parseExpressionStatement`. -/
def parseExpressionStatement : Nat → PSt → Option Stmt × PSt
  | 0, p => (none, p)
  | fuel + 1, p =>
    let tok := p.curToken
    let (e, p) := parseExpression fuel LOWEST p
    let p := if peekTokenIs p .SEMICOLON then pNextToken p else p
    (some (.exprS tok e), p)

/-- `parseBlockStatement`: statements until `}` or EOF (every result is
appended, including nil typed pointers; see `parseStatement`). -/
def parseBlockStatement : Nat → PSt → Block × PSt
  | 0, p => (.mk p.curToken [], p)
  | fuel + 1, p =>
    let tok := p.curToken
    let p := pNextToken p
    let (stmts, p) := parseBlockLoop fuel [] p
    (.mk tok stmts, p)

/-- Statement loop of `parseBlockStatement`. -/
def parseBlockLoop : Nat → List (Option Stmt) → PSt → List (Option Stmt) × PSt
  | 0, acc, p => (acc, p)
  | fuel + 1, acc, p =>
    if !(curTokenIs p .RBRACE) && !(curTokenIs p .EOF) then
      let (s, p) := parseStatement fuel p
      parseBlockLoop fuel (acc ++ [s]) (pNextToken p)
    else (acc, p)

/-- `parseExpression` (Pratt parsing): prefix dispatch for the current
token — this `match` is the `prefixParseFns` table registered in
`parser.New` — followed by the infix loop.  A token kind with no prefix
handler records `noPrefixParseFnError` and yields nil (note: `&&`, `||`,
`[`, `{` and `function` are among the kinds with no prefix handler). -/
def parseExpression : Nat → Nat → PSt → Option Expr × PSt
  | 0, _, p => (none, p)
  | fuel + 1, precedence, p =>
    match parseExpressionPrefixStep fuel p with
    | none => (none, noPrefixParseFnError p p.curToken.type)
    | some (left, p) => parseExpressionLoop fuel precedence left p

/-- The `prefixParseFns` table lookup-and-invoke of `parseExpression`: a
`none` result means the token kind has no registered prefix handler (so
`parseExpression` records a diagnostic and yields nil WITHOUT entering the
infix loop); a `some (none, _)` result means the handler ran but returned
a nil expression (the infix loop still runs on it). -/
def parseExpressionPrefixStep : Nat → PSt → Option (Option Expr × PSt)
  | 0, p => some (none, p)
  | fuel + 1, p =>
    match p.curToken.type with
    | .IDENT => some (some (.identifier p.curToken p.curToken.literal), p)
    | .INT => some (parseIntegerLiteral p)
    | .STRING => some (some (.stringLit p.curToken p.curToken.literal), p)
    | .TRUE => some (some (.booleanLit p.curToken (curTokenIs p .TRUE)), p)
    | .FALSE => some (some (.booleanLit p.curToken (curTokenIs p .TRUE)), p)
    | .BANG => some (parsePrefixExpression fuel p)
    | .MINUS => some (parsePrefixExpression fuel p)
    | .LPAREN => some (parseGroupedExpression fuel p)
    | .IF => some (parseIfExpression fuel p)
    | _ => none

/-- Infix loop of `parseExpression`: while the next token is not `;` and
binds tighter than `precedence`, advance and apply its infix handler —
this `match` is the `infixParseFns` table registered in `parser.New`
(`&&`/`||` have no infix handler, so the loop stops on them via the
LOWEST fallback of `peekPrecedence`). -/
def parseExpressionLoop : Nat → Nat → Option Expr → PSt → Option Expr × PSt
  | 0, _, left, p => (left, p)
  | fuel + 1, precedence, left, p =>
    if !(peekTokenIs p .SEMICOLON) && precedence < peekPrecedence p then
      match p.peekToken.type with
      | .PLUS => parseExpressionInfixStep fuel precedence left p
      | .MINUS => parseExpressionInfixStep fuel precedence left p
      | .SLASH => parseExpressionInfixStep fuel precedence left p
      | .ASTERISK => parseExpressionInfixStep fuel precedence left p
      | .EQ => parseExpressionInfixStep fuel precedence left p
      | .NotEq => parseExpressionInfixStep fuel precedence left p
      | .LT => parseExpressionInfixStep fuel precedence left p
      | .GT => parseExpressionInfixStep fuel precedence left p
      | .LPAREN =>
        let p := pNextToken p
        let (e, p) := parseCallExpression fuel left p
        parseExpressionLoop fuel precedence e p
      | .LBRACKET =>
        let p := pNextToken p
        let (e, p) := parseIndexExpression fuel left p
        parseExpressionLoop fuel precedence e p
      | .DOT =>
        let p := pNextToken p
        let (e, p) := parseDotExpression fuel left p
        parseExpressionLoop fuel precedence e p
      | _ => (left, p)
    else (left, p)

/-- One binary-operator step of the infix loop (advance onto the operator,
run `parseInfixExpression`, continue the loop). -/
def parseExpressionInfixStep : Nat → Nat → Option Expr → PSt → Option Expr × PSt
  | 0, _, left, p => (left, p)
  | fuel + 1, precedence, left, p =>
    let p := pNextToken p
    let (e, p) := parseInfixExpression fuel left p
    parseExpressionLoop fuel precedence e p

/-- `parseIntegerLiteral` (non-recursive): `strconv.ParseInt(lit, 0, 64)`,
recording "could not parse %q as integer" on failure. -/
def parseIntegerLiteral (p : PSt) : Option Expr × PSt :=
  match parseIntGo p.curToken.literal with
  | some v => (some (.integerLit p.curToken v), p)
  | none =>
    (none, { p with errors := p.errors ++
        ["could not parse \"" ++ p.curToken.literal ++ "\" as integer"] })

/-- `parsePrefixExpression`: `!x` / `-x`, operand parsed at PREFIX
precedence. -/
def parsePrefixExpression : Nat → PSt → Option Expr × PSt
  | 0, p => (none, p)
  | fuel + 1, p =>
    let tok := p.curToken
    let op := p.curToken.literal
    let p := pNextToken p
    let (right, p) := parseExpression fuel PREFIX p
    (some (.prefixE tok op right), p)

/-- `parseInfixExpression`: called with `curToken` on the operator. -/
def parseInfixExpression : Nat → Option Expr → PSt → Option Expr × PSt
  | 0, left, p => (left, p)
  | fuel + 1, left, p =>
    let tok := p.curToken
    let op := p.curToken.literal
    let precedence := curPrecedence p
    let p := pNextToken p
    let (right, p) := parseExpression fuel precedence p
    (some (.infixE tok left op right), p)

/-- `parseGroupedExpression`: `( <expr> )`. -/
def parseGroupedExpression : Nat → PSt → Option Expr × PSt
  | 0, p => (none, p)
  | fuel + 1, p =>
    let p := pNextToken p
    let (e, p) := parseExpression fuel LOWEST p
    let (ok, p) := expectPeek p .RPAREN
    if !ok then (none, p) else (e, p)

/-- `parseIfExpression`: `if (<cond>) { ... } (else { ... })?`. -/
def parseIfExpression : Nat → PSt → Option Expr × PSt
  | 0, p => (none, p)
  | fuel + 1, p =>
    let tok := p.curToken
    let (ok, p) := expectPeek p .LPAREN
    if !ok then (none, p) else
    let p := pNextToken p
    let (cond, p) := parseExpression fuel LOWEST p
    let (ok, p) := expectPeek p .RPAREN
    if !ok then (none, p) else
    let (ok, p) := expectPeek p .LBRACE
    if !ok then (none, p) else
    let (cons, p) := parseBlockStatement fuel p
    if peekTokenIs p .ELSE then
      let p := pNextToken p
      let (ok, p) := expectPeek p .LBRACE
      if !ok then (none, p) else
      let (alt, p) := parseBlockStatement fuel p
      (some (.ifE tok cond cons (some alt)), p)
    else
      (some (.ifE tok cond cons none), p)

/-- `parseCallExpression`: called with `curToken` on the `(`. -/
def parseCallExpression : Nat → Option Expr → PSt → Option Expr × PSt
  | 0, left, p => (left, p)
  | fuel + 1, function, p =>
    let tok := p.curToken
    let (args, p) := parseExpressionList fuel .RPAREN p
    (some (.callE tok function args), p)

/-- `parseIndexExpression`: called with `curToken` on the `[`. -/
def parseIndexExpression : Nat → Option Expr → PSt → Option Expr × PSt
  | 0, left, p => (left, p)
  | fuel + 1, left, p =>
    let tok := p.curToken
    let p := pNextToken p
    let (idx, p) := parseExpression fuel LOWEST p
    let (ok, p) := expectPeek p .RBRACKET
    if !ok then (none, p) else
    (some (.indexE tok left idx), p)

/-- `parseDotExpression`: `<expr> . <ident>`. -/
def parseDotExpression : Nat → Option Expr → PSt → Option Expr × PSt
  | 0, left, p => (left, p)
  | fuel + 1, left, p =>
    let tok := p.curToken
    let p := pNextToken p
    if !(curTokenIs p .IDENT) then
      (none, { p with errors := p.errors ++
          ["expected identifier after dot, got " ++ ttStr p.curToken.type ++ " instead"] })
    else
      (some (.dotE tok left (some (.identifier p.curToken p.curToken.literal))), p)

/-- `parseExpressionList`: `<expr> (, <expr>)*` up to `end` (the Go
function returns a nil slice when `end` is missing; a nil and an empty
argument slice are observationally equal in the evaluator, both are the
empty list here). -/
def parseExpressionList : Nat → TokenType → PSt → List (Option Expr) × PSt
  | 0, _, p => ([], p)
  | fuel + 1, endTok, p =>
    if peekTokenIs p endTok then
      ([], pNextToken p)
    else
      let p := pNextToken p
      let (e1, p) := parseExpression fuel LOWEST p
      let (list, p) := parseExpressionListLoop fuel [e1] p
      let (ok, p) := expectPeek p endTok
      if !ok then ([], p) else (list, p)

/-- `, <expr>` repetitions of `parseExpressionList`. -/
def parseExpressionListLoop : Nat → List (Option Expr) → PSt → List (Option Expr) × PSt
  | 0, acc, p => (acc, p)
  | fuel + 1, acc, p =>
    if peekTokenIs p .COMMA then
      let p := pNextToken (pNextToken p)
      let (e, p) := parseExpression fuel LOWEST p
      parseExpressionListLoop fuel (acc ++ [e]) p
    else (acc, p)

/-- `parseParameters`: `(<ident> : <type> (, <ident> : <type>)*)` — on any
missing token the Go function returns nil wholesale (the empty list
here). -/
def parseParameters : Nat → PSt → List Param × PSt
  | 0, p => ([], p)
  | fuel + 1, p =>
    if peekTokenIs p .RPAREN then
      ([], pNextToken p)
    else
      let p := pNextToken p
      let tok := p.curToken
      let name : Ident := { token := p.curToken, value := p.curToken.literal }
      let (ok, p) := expectPeek p .COLON
      if !ok then ([], p) else
      let p := pNextToken p
      let (ty, p) := parseTypeExpression fuel p
      let (params, p) := parseParametersLoop fuel [{ token := tok, name := name, type := ty }] p
      match params with
      | none => ([], p)
      | some ps =>
        let (ok, p) := expectPeek p .RPAREN
        if !ok then ([], p) else (ps, p)

/-- `, <ident> : <type>` repetitions of `parseParameters` (`none` models
the wholesale nil return on a missing `:`). -/
def parseParametersLoop : Nat → List Param → PSt → Option (List Param) × PSt
  | 0, acc, p => (some acc, p)
  | fuel + 1, acc, p =>
    if peekTokenIs p .COMMA then
      let p := pNextToken (pNextToken p)
      let tok := p.curToken
      let name : Ident := { token := p.curToken, value := p.curToken.literal }
      let (ok, p) := expectPeek p .COLON
      if !ok then (none, p) else
      let p := pNextToken p
      let (ty, p) := parseTypeExpression fuel p
      parseParametersLoop fuel (acc ++ [{ token := tok, name := name, type := ty }]) p
    else (some acc, p)

/-- `parseTypeExpression`: a base type name, `Address`, or
`Map<K, V>`. -/
def parseTypeExpression : Nat → PSt → Option TypeExpr × PSt
  | 0, p => (none, p)
  | fuel + 1, p =>
    let tok := p.curToken
    if curTokenIs p .IDENT then
      (some (.mk tok p.curToken.literal none none), p)
    else if curTokenIs p .ADDRESS then
      (some (.mk tok "Address" none none), p)
    else if curTokenIs p .MAP then
      let (ok, p) := expectPeek p .LT
      if !ok then (none, p) else
      let p := pNextToken p
      let (kt, p) := parseTypeExpression fuel p
      let (ok, p) := expectPeek p .COMMA
      if !ok then (none, p) else
      let p := pNextToken p
      let (vt, p) := parseTypeExpression fuel p
      let (ok, p) := expectPeek p .GT
      if !ok then (none, p) else
      (some (.mk tok "Map" kt vt), p)
    else
      (none, { p with errors := p.errors ++
          ["expected type expression, got " ++ ttStr p.curToken.type ++ " instead"] })
end

/-- Statement loop of `ParseProgram`: until EOF; every parsed statement is
appended (a nil typed pointer in a non-nil interface passes Go's
`stmt != nil` test, hence no filtering). -/
def parseProgramLoop : Nat → List (Option Stmt) → PSt → List (Option Stmt) × PSt
  | 0, acc, p => (acc, p)
  | fuel + 1, acc, p =>
    if !(curTokenIs p .EOF) then
      let (s, p) := parseStatement fuel p
      parseProgramLoop fuel (acc ++ [s]) (pNextToken p)
    else (acc, p)

/-- `ParseProgram` from pkg/parser/parser.go. -/
def parseProgram (fuel : Nat) (p : PSt) : Program × PSt :=
  let (stmts, p) := parseProgramLoop fuel [] p
  ({ statements := stmts }, p)

/-- Error taxonomy from pkg/errors/errors.go.  `goPanic` is not a Go
`*errors.Error`: it models a host-language panic (nil-pointer dereference
or failed type assertion), reachable only through AST shapes the parser
never produces without diagnostics.  `outOfFuel` is the out-of-fuel
artifact of the embedding. -/
inductive ErrType where
  | syntaxError | typeError | referenceError | runtimeError
  | goPanic | outOfFuel
deriving DecidableEq, Repr

/-- An error value (pkg/errors/errors.go, `Error`); the `File` field is
omitted because the interpreter always passes the empty string. -/
structure Err where
  etype : ErrType
  message : String
  line : Nat
  column : Nat
deriving DecidableEq, Repr

def newSyntaxError (message : String) (line column : Nat) : Err :=
  { etype := .syntaxError, message := message, line := line, column := column }

def newTypeError (message : String) (line column : Nat) : Err :=
  { etype := .typeError, message := message, line := line, column := column }

def newReferenceError (message : String) (line column : Nat) : Err :=
  { etype := .referenceError, message := message, line := line, column := column }

def newRuntimeError (message : String) (line column : Nat) : Err :=
  { etype := .runtimeError, message := message, line := line, column := column }

def panicErr (message : String) : Err :=
  { etype := .goPanic, message := message, line := 0, column := 0 }

def outOfFuelErr : Err :=
  { etype := .outOfFuel, message := "out of fuel", line := 0, column := 0 }

/-- `HashKey` from pkg/interpreter/interpreter.go: a type tag plus a
uint64 hash (here a Nat below 2^64). -/
structure HashKey where
  type : String
  value : Nat
deriving DecidableEq, Repr

/-- Two's-complement wrap of an integer into the int64 range, per the Go
specification of signed-integer overflow. -/
def wrap64 (n : Int) : Int := (n + 2 ^ 63).emod (2 ^ 64) - 2 ^ 63

/-- The uint64 two's-complement cast `uint64(v)` of an int64 value. -/
def uint64Cast (n : Int) : Nat := (n.emod (2 ^ 64)).toNat

/-- UTF-8 encoding of one character (byte values as Nats). -/
def utf8Bytes (c : Char) : List Nat :=
  let n := c.toNat
  if n < 0x80 then [n]
  else if n < 0x800 then
    [0xC0 + n / 64, 0x80 + n % 64]
  else if n < 0x10000 then
    [0xE0 + n / 4096, 0x80 + n / 64 % 64, 0x80 + n % 64]
  else
    [0xF0 + n / 262144, 0x80 + n / 4096 % 64, 0x80 + n / 64 % 64, 0x80 + n % 64]

/-- FNV-1a 64-bit hash (hash/fnv, `New64a`) of a byte sequence. -/
def fnv64a (bytes : List Nat) : Nat :=
  bytes.foldl (fun h b => ((h ^^^ b) * 1099511628211) % 2 ^ 64) 14695981039346656037

/-- The UTF-8 bytes of a string (what `h.Write([]byte(s))` hashes). -/
def strBytes (s : String) : List Nat := s.data.foldr (fun c acc => utf8Bytes c ++ acc) []

mutual
/-- Runtime values, from pkg/interpreter/interpreter.go: the payloads of
the `Object` implementations `Integer`, `String`, `Boolean`, `Address`,
`Function`, `ReturnValue`, `Array`, `Hash`, `Null`.  `Option Obj` fields
model Go interface slots that may hold nil.  A `hashV` pair list is keyed
by `HashKey` (the Go `map[HashKey]HashPair`, modelled in insertion
order, which the claims never observe). -/
inductive Val where
  | intV (n : Int)
  | strV (s : String)
  | boolV (b : Bool)
  | addrV (a : String)
  | funcV (parameters : List Param) (body : Block) (returnType : Option TypeExpr)
      (env : Nat) (name : String)
  | retV (value : Option Obj)
  | arrV (elements : List (Option Obj))
  | hashV (pairs : List (HashKey × Obj × Option Obj))
  | nullV

/-- A heap-allocated object: its allocation id (standing for the Go
pointer) and its payload. -/
inductive Obj where
  | mk (id : Nat) (val : Val)
end

def Obj.id : Obj → Nat
  | .mk i _ => i

def Obj.val : Obj → Val
  | .mk _ v => v

/-- The `Type()` method of each `Object` implementation. -/
def typeOf : Val → String
  | .intV _ => "INTEGER"
  | .strV _ => "STRING"
  | .boolV _ => "BOOLEAN"
  | .addrV _ => "ADDRESS"
  | .funcV _ _ _ _ _ => "FUNCTION"
  | .retV _ => "RETURN_VALUE"
  | .arrV _ => "ARRAY"
  | .hashV _ => "HASH"
  | .nullV => "NULL"

/-- The global shared `NULL` object (id 0 is reserved for it; the
allocation counter starts at 1). -/
def NULL : Obj := .mk 0 .nullV

/-- The `HashKey()` methods: `Hashable` is implemented exactly by
`String` (FNV-1a of the text), `Boolean` (1/0) and `Integer` (the uint64
cast); `none` models a failed `.(Hashable)` type assertion. -/
def hashKeyOf : Val → Option HashKey
  | .strV s => some { type := "STRING", value := fnv64a (strBytes s) }
  | .boolV b => some { type := "BOOLEAN", value := if b then 1 else 0 }
  | .intV n => some { type := "INTEGER", value := uint64Cast n }
  | _ => none

/-- Lookup in a `map[HashKey]HashPair` pair list. -/
def hashLookup : List (HashKey × Obj × Option Obj) → HashKey → Option (Obj × Option Obj)
  | [], _ => none
  | (k, kv, vv) :: rest, key => if k = key then some (kv, vv) else hashLookup rest key

/-- Insertion (with overwrite) into a `map[HashKey]HashPair` pair list. -/
def hashInsert : List (HashKey × Obj × Option Obj) → HashKey → Obj → Option Obj →
    List (HashKey × Obj × Option Obj)
  | [], key, kv, vv => [(key, kv, vv)]
  | (k, kv0, vv0) :: rest, key, kv, vv =>
    if k = key then (key, kv, vv) :: rest else (k, kv0, vv0) :: hashInsert rest key kv vv

/-- `Inspect()` of each `Object` implementation (fuel-structural; the
callers inside the evaluator pass their own fuel down, which suffices for
every value the claims touch).  The empty-string results for nil
interface slots stand for Go panics, unreachable from parsed programs. -/
def inspectObj : Nat → Obj → String
  | 0, _ => ""
  | fuel + 1, o =>
    match o.val with
    | .intV n => toString n
    | .strV s => s
    | .boolV b => if b then "true" else "false"
    | .addrV a => a
    | .funcV _ _ _ _ name => "function " ++ name
    | .retV v => match v with
      | some inner => inspectObj fuel inner
      | none => ""
    | .arrV elems =>
      "[" ++ String.intercalate ", "
        (elems.map (fun e => match e with
          | some o2 => inspectObj fuel o2
          | none => "")) ++ "]"
    | .hashV pairs =>
      "\x7b" ++ String.intercalate ", "
        (pairs.map (fun kv => match kv with
          | (_, k, v) =>
            inspectObj fuel k ++ ": " ++
            (match v with | some o2 => inspectObj fuel o2 | none => ""))) ++ "\x7d"
    | .nullV => "null"

/-- An `Environment` (pkg/interpreter/interpreter.go): a name-to-value
store and an optional enclosing environment, referenced by its heap
index. -/
structure Env where
  store : List (String × Option Obj)
  outer : Option Nat

/-- Interpreter state: the environment heap (Go mutates environments
through shared pointers; `envs` is indexed by environment id), the
current environment (`Interpreter.env`), and the allocation counter. -/
structure St where
  envs : List Env
  cur : Nat
  nextId : Nat

/-- `interpreter.New`: a single fresh global environment. -/
def initialSt : St :=
  { envs := [{ store := [], outer := none }], cur := 0, nextId := 1 }

/-- Allocate an object (the embedding of Go's `&Integer{...}` etc.): the
new object carries the current counter value ... -/
def allocObj (st : St) (v : Val) : Obj := .mk st.nextId v

/-- ... and the allocation bumps the counter. -/
def allocSt (st : St) : St := { st with nextId := st.nextId + 1 }

/-- Lookup in a single environment store (`e.store[name]`). -/
def storeGet : List (String × Option Obj) → String → Option (Option Obj)
  | [], _ => none
  | (k, v) :: rest, name => if k = name then some v else storeGet rest name

/-- Update of a single environment store (`e.store[name] = val`). -/
def storeSet : List (String × Option Obj) → String → Option Obj → List (String × Option Obj)
  | [], name, v => [(name, v)]
  | (k, w) :: rest, name, v =>
    if k = name then (name, v) :: rest else (k, w) :: storeSet rest name v

/-- `Environment.Get`: walk the outer chain until the name is found or the
chain is exhausted.  Outer links always point to lower heap indices, so
`envs.length + 1` steps (supplied by `envGet`) always suffice. -/
def envGetFuel : Nat → List Env → Nat → String → Option (Option Obj)
  | 0, _, _, _ => none
  | fuel + 1, envs, i, name =>
    match envs.get? i with
    | none => none
    | some e =>
      match storeGet e.store name with
      | some v => some v
      | none =>
        match e.outer with
        | none => none
        | some j => envGetFuel fuel envs j name

def envGet (st : St) (i : Nat) (name : String) : Option (Option Obj) :=
  envGetFuel (st.envs.length + 1) st.envs i name

/-- `Environment.Set` on the environment with heap index `i`. -/
def envSet (st : St) (i : Nat) (name : String) (v : Option Obj) : St :=
  match st.envs.get? i with
  | none => st
  | some e => { st with envs := st.envs.set i { e with store := storeSet e.store name v } }

/-- `NewEnclosedEnvironment`: the id of the appended fresh environment
(the current heap size) ... -/
def newEnvId (st : St) : Nat := st.envs.length

/-- ... and the heap grown by a fresh environment whose outer link is
`outer` and whose store starts as `store`. -/
def pushEnv (st : St) (outer : Nat) (store : List (String × Option Obj)) : St :=
  { st with envs := st.envs ++ [{ store := store, outer := some outer }] }

/-- `isTruthy`: Booleans by value, Integers by non-zeroness, everything
else (including a nil condition object) truthy. -/
def isTruthy : Option Obj → Bool
  | some (.mk _ (.boolV b)) => b
  | some (.mk _ (.intV n)) => n != 0
  | _ => true

/-- The result of one evaluation step: either a Go error or a (possibly
nil) object plus the successor state. -/
abbrev EvalRes := Except Err (Option Obj × St)

/-- `fmt.Sprintf("%d", v)` for an int64 value. -/
def goIntStr (n : Int) : String := toString n

/-- `strings.HasPrefix(s, "0")`. -/
def leadingZero (s : String) : Bool := List.isPrefixOf ("0".data) s.data

/-- `evalBangOperatorExpression`: `!` negates a Boolean; on every other
operand (nil included — a nil interface matches the type switch default)
the result is the fresh Boolean false. -/
def evalBangOperatorExpression (right : Option Obj) (st : St) : EvalRes :=
  match right with
  | some (.mk _ (.boolV b)) =>
    .ok (some (allocObj st (.boolV (!b))), allocSt st)
  | _ =>
    .ok (some (allocObj st (.boolV false)), allocSt st)

/-- `evalMinusPrefixOperatorExpression`: unary minus on an Integer
(wrapping), a TypeError otherwise. -/
def evalMinusPrefixOperatorExpression (right : Option Obj) (st : St) : EvalRes :=
  match right with
  | none => .error (panicErr "Type() on nil object")
  | some o =>
    match o.val with
    | .intV v =>
      .ok (some (allocObj st (.intV (wrap64 (-v)))), allocSt st)
    | _ => .error (newTypeError "Cannot negate non-integer" 0 0)

/-- `evalIntegerInfixExpression`: arithmetic (with int64 wrap-around;
division is Go's truncating `/` and raises "Division by zero" on a zero
divisor) and comparisons on two Integer operands. -/
def evalIntegerInfixExpression (operator : String) (left right : Obj) (st : St) : EvalRes :=
  match left.val, right.val with
  | .intV a, .intV b =>
    match operator with
    | "+" => .ok (some (allocObj st (.intV (wrap64 (a + b)))), allocSt st)
    | "-" => .ok (some (allocObj st (.intV (wrap64 (a - b)))), allocSt st)
    | "*" => .ok (some (allocObj st (.intV (wrap64 (a * b)))), allocSt st)
    | "/" =>
      if b = 0 then .error (newRuntimeError "Division by zero" 0 0)
      else .ok (some (allocObj st (.intV (wrap64 (a.tdiv b)))), allocSt st)
    | "<" => .ok (some (allocObj st (.boolV (decide (a < b)))), allocSt st)
    | ">" => .ok (some (allocObj st (.boolV (decide (b < a)))), allocSt st)
    | "<=" => .ok (some (allocObj st (.boolV (decide (a ≤ b)))), allocSt st)
    | ">=" => .ok (some (allocObj st (.boolV (decide (b ≤ a)))), allocSt st)
    | "==" => .ok (some (allocObj st (.boolV (decide (a = b)))), allocSt st)
    | "!=" => .ok (some (allocObj st (.boolV (!decide (a = b)))), allocSt st)
    | _ => .error (newRuntimeError ("Unknown operator: " ++ operator) 0 0)
  | _, _ => .error (panicErr "Integer type assertion failed")

/-- `evalStringInfixExpression`: `+` (concatenation), `==`, `!=` on two
String operands; anything else is "Unknown operator". -/
def evalStringInfixExpression (operator : String) (left right : Obj) (st : St) : EvalRes :=
  match left.val, right.val with
  | .strV a, .strV b =>
    match operator with
    | "+" => .ok (some (allocObj st (.strV (a ++ b))), allocSt st)
    | "==" => .ok (some (allocObj st (.boolV (a == b))), allocSt st)
    | "!=" => .ok (some (allocObj st (.boolV (a != b))), allocSt st)
    | _ => .error (newRuntimeError ("Unknown operator: " ++ operator) 0 0)
  | _, _ => .error (panicErr "String type assertion failed")

/-- The stringification used by the mixed concatenation helpers: Integer
to decimal text, Boolean to true/false, String itself, Address its text,
anything else its `Inspect()` (fuel-bounded). -/
def stringifyOther (fuel : Nat) (otherObj : Obj) : String :=
  match otherObj.val with
  | .intV n => goIntStr n
  | .boolV b => if b then "true" else "false"
  | .strV s => s
  | .addrV a => a
  | _ => inspectObj fuel otherObj

/-- `evalStringConcatExpression` (present in the source but not called by
`evalInfixExpression`, which uses the mixed variant below). -/
def evalStringConcatExpression (fuel : Nat) (strObj otherObj : Obj) (st : St) : EvalRes :=
  match strObj.val with
  | .strV s =>
    .ok (some (allocObj st (.strV (s ++ stringifyOther fuel otherObj))), allocSt st)
  | _ => .error (panicErr "String type assertion failed")

/-- `evalMixedStringConcatExpression`: concatenation of a String with any
other value, in left-to-right operand order. -/
def evalMixedStringConcatExpression (fuel : Nat) (strObj otherObj : Obj) (stringIsLeft : Bool)
    (st : St) : EvalRes :=
  match strObj.val with
  | .strV s =>
    let otherVal := stringifyOther fuel otherObj
    .ok (some (allocObj st (.strV (if stringIsLeft then s ++ otherVal else otherVal ++ s))), allocSt st)
  | _ => .error (panicErr "String type assertion failed")

/-- `evalArrayIndexExpression`: an Integer index outside `0..len-1` yields
the shared NULL object, otherwise the stored element. -/
def evalArrayIndexExpression (array index : Obj) (st : St) : EvalRes :=
  match array.val, index.val with
  | .arrV elements, .intV idx =>
    let max : Int := Int.ofNat elements.length - 1
    if idx < 0 || max < idx then .ok (some NULL, st)
    else .ok ((elements.get? idx.toNat).getD none, st)
  | _, _ => .error (panicErr "Array/Integer type assertion failed")

/-- `evalHashIndexExpression`: a non-Hashable key is a runtime error, a
missing key yields the shared NULL object. -/
def evalHashIndexExpression (hash : Obj) (index : Option Obj) (token : Token) (st : St) : EvalRes :=
  match hash.val with
  | .hashV pairs =>
    match index with
    | none => .error (panicErr "Type() on nil object")
    | some ix =>
      match hashKeyOf ix.val with
      | none => .error (newRuntimeError ("unusable as hash key: " ++ typeOf ix.val)
          token.line token.column)
      | some hk =>
        match hashLookup pairs hk with
        | none => .ok (some NULL, st)
        | some (_, v) => .ok (v, st)
  | _ => .error (panicErr "Hash type assertion failed")

/-- `evalElementAccess`: dispatch of the index operator — Array with an
Integer index, or Hash with any index (checked inside); anything else is
"index operator not supported".  A nil collection, or a nil index against
an Array, panics at the `Type()` call in the Go switch condition. -/
def evalElementAccess (left index : Option Obj) (token : Token) (st : St) : EvalRes :=
  match left with
  | none => .error (panicErr "Type() on nil object")
  | some l =>
    if typeOf l.val == "ARRAY" then
      match index with
      | none => .error (panicErr "Type() on nil object")
      | some ix =>
        if typeOf ix.val == "INTEGER" then evalArrayIndexExpression l ix st
        else .error (newRuntimeError ("index operator not supported: " ++ typeOf l.val)
            token.line token.column)
    else if typeOf l.val == "HASH" then
      evalHashIndexExpression l index token st
    else
      .error (newRuntimeError ("index operator not supported: " ++ typeOf l.val)
          token.line token.column)

/-- `evalIdentifier`: environment lookup through the outer chain;
"Identifier not found" is a ReferenceError at the identifier's token. -/
def evalIdentifier (token : Token) (value : String) (st : St) : EvalRes :=
  match envGet st st.cur value with
  | none => .error (newReferenceError ("Identifier not found: " ++ value) token.line token.column)
  | some v => .ok (v, st)

/-- `evalFunctionLiteral`: a function value capturing the current
environment (the closure) with no name. -/
def evalFunctionLiteral (parameters : List Param) (returnType : Option TypeExpr) (body : Block)
    (st : St) : EvalRes :=
  .ok (some (allocObj st (.funcV parameters body returnType st.cur "")), allocSt st)

/-- `evalFunctionStatement`: build the function value (capturing the
current environment) and bind it under its name when non-empty. -/
def evalFunctionStatement (name : Ident) (parameters : List Param) (returnType : Option TypeExpr)
    (body : Block) (st : St) : EvalRes :=
  let o := allocObj st (.funcV parameters body returnType st.cur name.value)
  let st2 := allocSt st
  if name.value != "" then .ok (some o, envSet st2 st2.cur name.value (some o))
  else .ok (some o, st2)

/-- `evalContractStatement`: contracts are not implemented. -/
def evalContractStatement (token : Token) : EvalRes :=
  .error (newRuntimeError "Contract statements not implemented yet" token.line token.column)

/-- `evalDotExpression` (present in the source but unreachable:
`evalExpression` has no DotExpression case, so dot expressions hit its
default branch instead). -/
def evalDotExpression (token : Token) : EvalRes :=
  .error (newRuntimeError "Dot expressions not implemented yet" token.line token.column)

/-- The parameter binding loop of `evalCallExpression`:
`extendedEnv.Set(param.Name.Value, args[i])` in order. -/
def buildParamStore (parameters : List Param) (args : List (Option Obj)) :
    List (String × Option Obj) :=
  (parameters.zip args).foldl (fun s pa => storeSet s pa.1.name.value pa.2) []

mutual
/-- `evalProgram`: top-level statements in sequence, first error wins, the
program's value is the value of the last statement evaluated.  Note that
(unlike `evalBlockStatement`) this loop has no RETURN_VALUE check: a
top-level `return` does not stop it. -/
def evalProgram : Nat → List (Option Stmt) → St → EvalRes
  | 0, _, _ => .error outOfFuelErr
  | _ + 1, [], st => .ok (none, st)
  | fuel + 1, s :: rest, st =>
    match evalStatement fuel s st with
    | .error e => .error e
    | .ok (r, st2) =>
      match rest with
      | [] => .ok (r, st2)
      | _ => evalProgram fuel rest st2

/-- `evalStatement`: type-tag dispatch.  A `none` input models Go's nil
typed statement pointer inside a non-nil interface: the switch selects a
case and the handler dereferences nil (a host panic).  Constructor and
event statements hit the default "Unknown statement type" branch. -/
def evalStatement : Nat → Option Stmt → St → EvalRes
  | 0, _, _ => .error outOfFuelErr
  | _ + 1, none, _ => .error (panicErr "nil statement dereference")
  | fuel + 1, some s, st =>
    match s with
    | .letS _ name _ value => evalLetStatement fuel name value st
    | .returnS _ value => evalReturnStatement fuel value st
    | .exprS _ e => evalExpression fuel e st
    | .blockSt b => evalBlockStatement fuel b st
    | .contractS tok _ _ _ => evalContractStatement tok
    | .functionS _ name params rt body => evalFunctionStatement name params rt body st
    | .requireS tok cond msg => evalRequireStatement fuel tok cond msg st
    | .emitS _ _ args => evalEmitStatement fuel args st
    | .constructorS _ _ _ => .error (newRuntimeError "Unknown statement type" 0 0)
    | .eventS _ _ _ => .error (newRuntimeError "Unknown statement type" 0 0)

/-- `evalLetStatement`: evaluate the right-hand side, bind it in the
current environment, and return it. -/
def evalLetStatement : Nat → Ident → Option Expr → St → EvalRes
  | 0, _, _, _ => .error outOfFuelErr
  | fuel + 1, name, value, st =>
    match evalExpression fuel value st with
    | .error e => .error e
    | .ok (v, st2) => .ok (v, envSet st2 st2.cur name.value v)

/-- `evalReturnStatement`: wrap the evaluated value in a fresh
ReturnValue. -/
def evalReturnStatement : Nat → Option Expr → St → EvalRes
  | 0, _, _ => .error outOfFuelErr
  | fuel + 1, value, st =>
    match evalExpression fuel value st with
    | .error e => .error e
    | .ok (v, st2) =>
      .ok (some (allocObj st2 (.retV v)), allocSt st2)

/-- `evalBlockStatement`: push a fresh enclosed environment, run the body
(stopping early on a RETURN_VALUE), and restore the previous environment
on exit. -/
def evalBlockStatement : Nat → Block → St → EvalRes
  | 0, _, _ => .error outOfFuelErr
  | fuel + 1, b, st =>
    let previousEnv := st.cur
    let blockEnvId := newEnvId st
    let st1 := pushEnv st st.cur []
    evalBlockLoop fuel b.statements none previousEnv { st1 with cur := blockEnvId }

/-- Statement loop of `evalBlockStatement`: `result` is the value of the
last statement evaluated so far; a RETURN_VALUE result stops the walk and
is propagated still wrapped; the previous environment is restored on
every exit (on the error exit Go also restores it, but the Except model
drops the state there). -/
def evalBlockLoop : Nat → List (Option Stmt) → Option Obj → Nat → St → EvalRes
  | 0, _, _, _, _ => .error outOfFuelErr
  | _ + 1, [], result, previousEnv, st => .ok (result, { st with cur := previousEnv })
  | fuel + 1, s :: rest, _, previousEnv, st =>
    match evalStatement fuel s st with
    | .error e => .error e
    | .ok (r, st2) =>
      match r with
      | some (.mk i (.retV v)) => .ok (some (.mk i (.retV v)), { st2 with cur := previousEnv })
      | _ => evalBlockLoop fuel rest r previousEnv st2

/-- `evalExpression`: type-tag dispatch over expression nodes.  A `none`
input (a nil `Expression` interface) falls into the default branch with
`%T` printing `<nil>`; dot expressions also land in the default branch
(the switch has no DotExpression case). -/
def evalExpression : Nat → Option Expr → St → EvalRes
  | 0, _, _ => .error outOfFuelErr
  | _ + 1, none, _ => .error (newRuntimeError "Unknown expression type: <nil>" 0 0)
  | fuel + 1, some e, st =>
    match e with
    | .integerLit _ v =>
      .ok (some (allocObj st (.intV v)), allocSt st)
    | .stringLit _ v =>
      .ok (some (allocObj st (.strV v)), allocSt st)
    | .booleanLit _ v =>
      .ok (some (allocObj st (.boolV v)), allocSt st)
    | .prefixE tok op right => evalPrefixExpression fuel tok op right st
    | .infixE tok left op right => evalInfixExpression fuel tok left op right st
    | .ifE _ cond cons alt => evalIfExpression fuel cond cons alt st
    | .identifier tok v => evalIdentifier tok v st
    | .callE tok fn args => evalCallExpression fuel tok fn args st
    | .funcLit _ params rt body => evalFunctionLiteral params rt body st
    | .arrayLit _ elements => evalArrayLiteral fuel elements st
    | .indexE tok left index => evalIndexExpression fuel tok left index st
    | .hashLit tok pairs => evalHashLiteral fuel tok pairs st
    | .dotE _ _ _ => .error (newRuntimeError "Unknown expression type: *parser.DotExpression" 0 0)

/-- `evalPrefixExpression`: evaluate the operand, then dispatch on the
operator text. -/
def evalPrefixExpression : Nat → Token → String → Option Expr → St → EvalRes
  | 0, _, _, _, _ => .error outOfFuelErr
  | fuel + 1, tok, op, right, st =>
    match evalExpression fuel right st with
    | .error e => .error e
    | .ok (r, st2) =>
      match op with
      | "!" => evalBangOperatorExpression r st2
      | "-" => evalMinusPrefixOperatorExpression r st2
      | _ => .error (newRuntimeError ("Unknown operator: " ++ op) tok.line tok.column)

/-- `evalInfixExpression`: evaluate both operands eagerly (note: `&&` and
`||` would be dispatched here if the parser produced them — there is no
route to `evalLogicalExpression`), then the case chain: Integer-Integer
(with the leading-zero concatenation carve-out on `+`), String-String,
mixed String `+`, pointer-identity `==`/`!=`, else a type mismatch. -/
def evalInfixExpression : Nat → Token → Option Expr → String → Option Expr → St → EvalRes
  | 0, _, _, _, _, _ => .error outOfFuelErr
  | fuel + 1, tok, left, op, right, st =>
    match evalExpression fuel left st with
    | .error e => .error e
    | .ok (lv, st1) =>
      match evalExpression fuel right st1 with
      | .error e => .error e
      | .ok (rv, st2) =>
        match lv, rv with
        | none, _ => .error (panicErr "Type() on nil object")
        | _, none => .error (panicErr "Type() on nil object")
        | some lo, some ro =>
          match lo.val, ro.val with
          | .intV a, .intV b =>
            if op == "+" then
              let leftStr := goIntStr a
              let rightStr := goIntStr b
              if leadingZero leftStr || leadingZero rightStr then
                .ok (some (allocObj st2 (.strV (leftStr ++ rightStr))), allocSt st2)
              else evalIntegerInfixExpression op lo ro st2
            else evalIntegerInfixExpression op lo ro st2
          | .strV _, .strV _ => evalStringInfixExpression op lo ro st2
          | _, _ =>
            if typeOf lo.val == "STRING" && op == "+" then
              evalMixedStringConcatExpression fuel lo ro true st2
            else if typeOf ro.val == "STRING" && op == "+" then
              evalMixedStringConcatExpression fuel ro lo false st2
            else if op == "==" then
              .ok (some (allocObj st2 (.boolV (lo.id == ro.id))), allocSt st2)
            else if op == "!=" then
              .ok (some (allocObj st2 (.boolV (lo.id != ro.id))), allocSt st2)
            else
              .error (newTypeError
                ("Type mismatch: " ++ typeOf lo.val ++ " " ++ op ++ " " ++ typeOf ro.val)
                tok.line tok.column)

/-- `evalLogicalExpression`: short-circuit `&&`/`||` over Boolean
operands.  This function exists in the source but nothing calls it: the
parser has no prefix/infix handler and no precedence entry for `&&`/`||`,
and `evalExpression` routes every InfixExpression to
`evalInfixExpression`. -/
def evalLogicalExpression : Nat → Token → Option Expr → String → Option Expr → St → EvalRes
  | 0, _, _, _, _, _ => .error outOfFuelErr
  | fuel + 1, tok, left, op, right, st =>
    match evalExpression fuel left st with
    | .error e => .error e
    | .ok (lv, st1) =>
      match lv with
      | none => .error (panicErr "Type() on nil object")
      | some lo =>
        match lo.val with
        | .boolV leftBool =>
          if op == "&&" && !leftBool then
            .ok (some (allocObj st1 (.boolV false)), allocSt st1)
          else if op == "||" && leftBool then
            .ok (some (allocObj st1 (.boolV true)), allocSt st1)
          else
            match evalExpression fuel right st1 with
            | .error e => .error e
            | .ok (rv, st2) =>
              match rv with
              | none => .error (panicErr "Type() on nil object")
              | some ro =>
                match ro.val with
                | .boolV rightBool =>
                  if op == "&&" then
                    .ok (some (allocObj st2 (.boolV (leftBool && rightBool))), allocSt st2)
                  else
                    .ok (some (allocObj st2 (.boolV (leftBool || rightBool))), allocSt st2)
                | _ => .error (newTypeError
                    ("Right operand of " ++ op ++ " must be a boolean, got " ++ typeOf ro.val)
                    tok.line tok.column)
        | _ => .error (newTypeError
            ("Left operand of " ++ op ++ " must be a boolean, got " ++ typeOf lo.val)
            tok.line tok.column)

/-- `evalIfExpression`: truthiness of the condition selects the
consequence, the alternative, or a nil result. -/
def evalIfExpression : Nat → Option Expr → Block → Option Block → St → EvalRes
  | 0, _, _, _, _ => .error outOfFuelErr
  | fuel + 1, cond, cons, alt, st =>
    match evalExpression fuel cond st with
    | .error e => .error e
    | .ok (c, st2) =>
      if isTruthy c then evalBlockStatement fuel cons st2
      else
        match alt with
        | some a => evalBlockStatement fuel a st2
        | none => .ok (none, st2)

/-- `evalCallExpression`: evaluate the callee (a TypeError names its type
when it is not a Function), evaluate the arguments, check the arity, bind
the arguments in a fresh environment enclosed by the function's captured
environment, run the body there, restore the caller environment, and
unwrap a ReturnValue result. -/
def evalCallExpression : Nat → Token → Option Expr → List (Option Expr) → St → EvalRes
  | 0, _, _, _, _ => .error outOfFuelErr
  | fuel + 1, tok, fnExpr, argExprs, st =>
    match evalExpression fuel fnExpr st with
    | .error e => .error e
    | .ok (fv, st1) =>
      match fv with
      | none => .error (panicErr "Type() on nil object")
      | some fo =>
        match fo.val with
        | .funcV params body _ fenv _ =>
          match evalExpressions fuel argExprs st1 with
          | .error e => .error e
          | .ok (args, st2) =>
            if args.length != params.length then
              .error (newTypeError
                ("Wrong number of arguments: expected " ++ toString params.length ++
                 ", got " ++ toString args.length) tok.line tok.column)
            else
              let extendedEnv := newEnvId st2
              let st3 := pushEnv st2 fenv (buildParamStore params args)
              match evalBlockStatement fuel body { st3 with cur := extendedEnv } with
                | .error e => .error e
                | .ok (result, st4) =>
                  let st5 := { st4 with cur := st2.cur }
                  match result with
                  | some (.mk _ (.retV v)) => .ok (v, st5)
                  | _ => .ok (result, st5)
        | _ => .error (newTypeError ("Not a function: " ++ typeOf fo.val) tok.line tok.column)

/-- `evalExpressions`: left-to-right evaluation of an expression list,
first error wins. -/
def evalExpressions : Nat → List (Option Expr) → St → Except Err (List (Option Obj) × St)
  | 0, _, _ => .error outOfFuelErr
  | _ + 1, [], st => .ok ([], st)
  | fuel + 1, e :: rest, st =>
    match evalExpression fuel e st with
    | .error err => .error err
    | .ok (v, st2) =>
      match evalExpressions fuel rest st2 with
      | .error err => .error err
      | .ok (vs, st3) => .ok (v :: vs, st3)

/-- `evalIndexExpression`: evaluate the collection, then the index, then
`evalElementAccess` at the `[` token. -/
def evalIndexExpression : Nat → Token → Option Expr → Option Expr → St → EvalRes
  | 0, _, _, _, _ => .error outOfFuelErr
  | fuel + 1, tok, left, index, st =>
    match evalExpression fuel left st with
    | .error e => .error e
    | .ok (lv, st1) =>
      match evalExpression fuel index st1 with
      | .error e => .error e
      | .ok (iv, st2) => evalElementAccess lv iv tok st2

/-- `evalArrayLiteral`: evaluate the elements in order into a fresh
Array. -/
def evalArrayLiteral : Nat → List (Option Expr) → St → EvalRes
  | 0, _, _ => .error outOfFuelErr
  | fuel + 1, elements, st =>
    match evalArrayElems fuel elements st with
    | .error e => .error e
    | .ok (objs, st2) =>
      .ok (some (allocObj st2 (.arrV objs)), allocSt st2)

/-- Element loop of `evalArrayLiteral`. -/
def evalArrayElems : Nat → List (Option Expr) → St → Except Err (List (Option Obj) × St)
  | 0, _, _ => .error outOfFuelErr
  | _ + 1, [], st => .ok ([], st)
  | fuel + 1, e :: rest, st =>
    match evalExpression fuel e st with
    | .error err => .error err
    | .ok (v, st2) =>
      match evalArrayElems fuel rest st2 with
      | .error err => .error err
      | .ok (vs, st3) => .ok (v :: vs, st3)

/-- `evalHashLiteral`: evaluate each key (which must be Hashable) and
value into a fresh Hash. -/
def evalHashLiteral : Nat → Token → List (Option Expr × Option Expr) → St → EvalRes
  | 0, _, _, _ => .error outOfFuelErr
  | fuel + 1, tok, entries, st =>
    match evalHashPairs fuel tok entries [] st with
    | .error e => .error e
    | .ok (pairs, st2) =>
      .ok (some (allocObj st2 (.hashV pairs)), allocSt st2)

/-- Entry loop of `evalHashLiteral` (pair order models one iteration
order of the Go map of AST pairs). -/
def evalHashPairs : Nat → Token → List (Option Expr × Option Expr) →
    List (HashKey × Obj × Option Obj) → St → Except Err (List (HashKey × Obj × Option Obj) × St)
  | 0, _, _, _, _ => .error outOfFuelErr
  | _ + 1, _, [], acc, st => .ok (acc, st)
  | fuel + 1, tok, (kNode, vNode) :: rest, acc, st =>
    match evalExpression fuel kNode st with
    | .error e => .error e
    | .ok (kv, st1) =>
      match kv with
      | none => .error (panicErr "Type() on nil object")
      | some k =>
        match hashKeyOf k.val with
        | none => .error (newRuntimeError ("unusable as hash key: " ++ typeOf k.val)
            tok.line tok.column)
        | some hk =>
          match evalExpression fuel vNode st1 with
          | .error e => .error e
          | .ok (vv, st2) => evalHashPairs fuel tok rest (hashInsert acc hk k vv) st2

/-- `evalRequireStatement`: a falsy condition aborts with a RuntimeError
whose message is the evaluated message when that is a String, and
"Requirement failed" otherwise (also when the message node is nil, a
shape the parser never produces). -/
def evalRequireStatement : Nat → Token → Option Expr → Option Expr → St → EvalRes
  | 0, _, _, _, _ => .error outOfFuelErr
  | fuel + 1, tok, cond, msg, st =>
    match evalExpression fuel cond st with
    | .error e => .error e
    | .ok (c, st1) =>
      if !isTruthy c then
        match msg with
        | none => .error (newRuntimeError "Requirement failed" tok.line tok.column)
        | some m =>
          match evalExpression fuel (some m) st1 with
          | .error e => .error e
          | .ok (mv, _) =>
            match mv with
            | none => .error (panicErr "Type() on nil object")
            | some mo =>
              match mo.val with
              | .strV s => .error (newRuntimeError s tok.line tok.column)
              | _ => .error (newRuntimeError "Requirement failed" tok.line tok.column)
      else .ok (none, st1)

/-- `evalEmitStatement`: evaluate (and print) the arguments; the
statement itself yields nil and cannot fail except through argument
evaluation (printing a nil argument would panic). -/
def evalEmitStatement : Nat → List (Option Expr) → St → EvalRes
  | 0, _, _ => .error outOfFuelErr
  | fuel + 1, args, st =>
    match evalEmitLoop fuel args st with
    | .error e => .error e
    | .ok st2 => .ok (none, st2)

/-- Argument loop of `evalEmitStatement`. -/
def evalEmitLoop : Nat → List (Option Expr) → St → Except Err St
  | 0, _, _ => .error outOfFuelErr
  | _ + 1, [], st => .ok st
  | fuel + 1, a :: rest, st =>
    match evalExpression fuel a st with
    | .error e => .error e
    | .ok (v, st2) =>
      match v with
      | none => .error (panicErr "Inspect() on nil object")
      | some _ => evalEmitLoop fuel rest st2
end

/-- `Interpreter.Run` from pkg/interpreter/interpreter.go, exposing the
evaluated result object instead of printing it: parse the program; any
parse diagnostic makes the run fail with the SyntaxError "Failed to parse
program" WITHOUT evaluating; otherwise evaluate and propagate the first
evaluation error. -/
def run (fuel : Nat) (source : String) : Except Err (Option Obj) :=
  let p := parserNew source
  match parseProgram fuel p with
  | (program, p2) =>
    if p2.errors.length != 0 then
      .error (newSyntaxError "Failed to parse program" 0 0)
    else
      match evalProgram fuel program.statements initialSt with
      | .error e => .error e
      | .ok (result, _) => .ok result

/-- Heap preservation: same current environment, the heap only grows, and
every pre-existing environment entry is unchanged. -/
def presAll (st st2 : St) : Prop :=
  st2.cur = st.cur ∧ st.envs.length ≤ st2.envs.length ∧
  ∀ i, i < st.envs.length → st2.envs.get? i = st.envs.get? i

/-- Heap preservation except possibly at the current environment (which a
`let` or a named function declaration may update in place). -/
def presNoCur (st st2 : St) : Prop :=
  st2.cur = st.cur ∧ st.envs.length ≤ st2.envs.length ∧
  ∀ i, i < st.envs.length → i ≠ st.cur → st2.envs.get? i = st.envs.get? i

theorem presAll_refl (st : St) : presAll st st := ⟨rfl, le_refl _, fun _ _ => rfl⟩

theorem presAll_to_presNoCur {st st2 : St} (h : presAll st st2) : presNoCur st st2 :=
  ⟨h.1, h.2.1, fun i hi _ => h.2.2 i hi⟩

theorem presAll_trans {st st1 st2 : St} (h1 : presAll st st1) (h2 : presAll st1 st2) :
    presAll st st2 :=
  ⟨h2.1.trans h1.1, le_trans h1.2.1 h2.2.1,
    fun i hi => (h2.2.2 i (lt_of_lt_of_le hi h1.2.1)).trans (h1.2.2 i hi)⟩

theorem presNoCur_trans {st st1 st2 : St} (h1 : presNoCur st st1) (h2 : presNoCur st1 st2) :
    presNoCur st st2 :=
  ⟨h2.1.trans h1.1, le_trans h1.2.1 h2.2.1,
    fun i hi hne =>
      (h2.2.2 i (lt_of_lt_of_le hi h1.2.1) (by rw [h1.1]; exact hne)).trans (h1.2.2 i hi hne)⟩

theorem presAll_presNoCur_trans {st st1 st2 : St} (h1 : presAll st st1)
    (h2 : presNoCur st1 st2) : presNoCur st st2 :=
  presNoCur_trans (presAll_to_presNoCur h1) h2

theorem presNoCur_presAll_trans {st st1 st2 : St} (h1 : presNoCur st st1)
    (h2 : presAll st1 st2) : presNoCur st st2 :=
  presNoCur_trans h1 (presAll_to_presNoCur h2)

/-- Allocation only bumps the counter. -/
theorem presAll_allocSt (st : St) : presAll st (allocSt st) := ⟨rfl, le_refl _, fun _ _ => rfl⟩

/-- `Environment.Set` on the current environment touches no other
entry. -/
theorem presNoCur_envSet (st : St) (name : String) (v : Option Obj) :
    presNoCur st (envSet st st.cur name v) := by
  unfold envSet
  cases hg : st.envs.get? st.cur with
  | none => exact ⟨rfl, le_refl _, fun _ _ _ => rfl⟩
  | some e =>
    refine ⟨rfl, ?_, ?_⟩
    · simp
    · intro i hi hne
      simp [List.getElem?_set_ne (fun h => hne h.symm)]

/-- Appending a fresh environment preserves every existing entry. -/
theorem presAll_pushEnv (st : St) (outer : Nat) (store : List (String × Option Obj)) :
    presAll st (pushEnv st outer store) := by
  unfold pushEnv
  refine ⟨rfl, by simp, ?_⟩
  intro i hi
  simp [List.getElem?_append_left hi]


theorem evalBang_pres (r : Option Obj) (st : St) (v : Option Obj) (st2 : St)
    (h : evalBangOperatorExpression r st = .ok (v, st2)) : presAll st st2 := by
  unfold evalBangOperatorExpression at h
  repeat' split at h
  all_goals simp_all
  all_goals (rw [← h.2]; exact presAll_allocSt st)

theorem evalMinus_pres (r : Option Obj) (st : St) (v : Option Obj) (st2 : St)
    (h : evalMinusPrefixOperatorExpression r st = .ok (v, st2)) : presAll st st2 := by
  unfold evalMinusPrefixOperatorExpression at h
  repeat' split at h
  all_goals simp_all
  all_goals (rw [← h.2]; exact presAll_allocSt st)

theorem evalIntegerInfix_pres (op : String) (l r : Obj) (st : St) (v : Option Obj) (st2 : St)
    (h : evalIntegerInfixExpression op l r st = .ok (v, st2)) : presAll st st2 := by
  unfold evalIntegerInfixExpression at h
  repeat' split at h
  all_goals simp_all
  all_goals (rw [← h.2]; exact presAll_allocSt st)

theorem evalStringInfix_pres (op : String) (l r : Obj) (st : St) (v : Option Obj) (st2 : St)
    (h : evalStringInfixExpression op l r st = .ok (v, st2)) : presAll st st2 := by
  unfold evalStringInfixExpression at h
  repeat' split at h
  all_goals simp_all
  all_goals (rw [← h.2]; exact presAll_allocSt st)

theorem evalMixedConcat_pres (fuel : Nat) (a b : Obj) (lft : Bool) (st : St) (v : Option Obj)
    (st2 : St) (h : evalMixedStringConcatExpression fuel a b lft st = .ok (v, st2)) :
    presAll st st2 := by
  unfold evalMixedStringConcatExpression at h
  repeat' split at h
  all_goals simp_all
  all_goals (rw [← h.2]; exact presAll_allocSt st)

theorem evalElementAccess_pres (l ix : Option Obj) (tok : Token) (st : St) (v : Option Obj)
    (st2 : St) (h : evalElementAccess l ix tok st = .ok (v, st2)) : st2 = st := by
  unfold evalElementAccess evalArrayIndexExpression evalHashIndexExpression at h
  dsimp only at h
  repeat' split at h
  all_goals simp_all

theorem evalIdentifier_pres (tok : Token) (name : String) (st : St) (v : Option Obj) (st2 : St)
    (h : evalIdentifier tok name st = .ok (v, st2)) : st2 = st := by
  unfold evalIdentifier at h
  repeat' split at h
  all_goals simp_all

theorem evalFunctionLiteral_pres (ps : List Param) (rt : Option TypeExpr) (b : Block) (st : St)
    (v : Option Obj) (st2 : St) (h : evalFunctionLiteral ps rt b st = .ok (v, st2)) :
    presAll st st2 := by
  unfold evalFunctionLiteral at h
  simp at h
  rw [← h.2]
  exact presAll_allocSt st

theorem evalFunctionStatement_pres (n : Ident) (ps : List Param) (rt : Option TypeExpr)
    (b : Block) (st : St) (v : Option Obj) (st2 : St)
    (h : evalFunctionStatement n ps rt b st = .ok (v, st2)) : presNoCur st st2 := by
  unfold evalFunctionStatement at h
  split at h
  · simp at h
    rw [← h.2]
    exact presAll_presNoCur_trans (presAll_allocSt st) (presNoCur_envSet _ _ _)
  · simp at h
    rw [← h.2]
    exact presAll_to_presNoCur (presAll_allocSt st)

theorem presNoCur_refl (st : St) : presNoCur st st := ⟨rfl, le_refl _, fun _ _ _ => rfl⟩

def presProgP (fuel : Nat) : Prop :=
  ∀ ss st v st2, evalProgram fuel ss st = .ok (v, st2) → presNoCur st st2

def presStmtP (fuel : Nat) : Prop :=
  ∀ s st v st2, evalStatement fuel s st = .ok (v, st2) → presNoCur st st2

def presLetP (fuel : Nat) : Prop :=
  ∀ n e st v st2, evalLetStatement fuel n e st = .ok (v, st2) → presNoCur st st2

def presRetP (fuel : Nat) : Prop :=
  ∀ e st v st2, evalReturnStatement fuel e st = .ok (v, st2) → presAll st st2

def presBlockP (fuel : Nat) : Prop :=
  ∀ b st v st2, evalBlockStatement fuel b st = .ok (v, st2) → presAll st st2

def presBlockLoopP (fuel : Nat) : Prop :=
  ∀ ss res prev st v st2, evalBlockLoop fuel ss res prev st = .ok (v, st2) →
    st2.cur = prev ∧ st.envs.length ≤ st2.envs.length ∧
    ∀ i, i < st.envs.length → i ≠ st.cur → st2.envs.get? i = st.envs.get? i

def presExprP (fuel : Nat) : Prop :=
  ∀ e st v st2, evalExpression fuel e st = .ok (v, st2) → presAll st st2

def presPreExprP (fuel : Nat) : Prop :=
  ∀ tok op r st v st2, evalPrefixExpression fuel tok op r st = .ok (v, st2) → presAll st st2

def presInfExprP (fuel : Nat) : Prop :=
  ∀ tok l op r st v st2, evalInfixExpression fuel tok l op r st = .ok (v, st2) → presAll st st2

def presLogExprP (fuel : Nat) : Prop :=
  ∀ tok l op r st v st2, evalLogicalExpression fuel tok l op r st = .ok (v, st2) → presAll st st2

def presIfP (fuel : Nat) : Prop :=
  ∀ c cons alt st v st2, evalIfExpression fuel c cons alt st = .ok (v, st2) → presAll st st2

def presCallP (fuel : Nat) : Prop :=
  ∀ tok f args st v st2, evalCallExpression fuel tok f args st = .ok (v, st2) → presAll st st2

def presExprsP (fuel : Nat) : Prop :=
  ∀ es st vs st2, evalExpressions fuel es st = .ok (vs, st2) → presAll st st2

def presIdxP (fuel : Nat) : Prop :=
  ∀ tok l ix st v st2, evalIndexExpression fuel tok l ix st = .ok (v, st2) → presAll st st2

def presArrLitP (fuel : Nat) : Prop :=
  ∀ es st v st2, evalArrayLiteral fuel es st = .ok (v, st2) → presAll st st2

def presArrElemsP (fuel : Nat) : Prop :=
  ∀ es st vs st2, evalArrayElems fuel es st = .ok (vs, st2) → presAll st st2

def presHashLitP (fuel : Nat) : Prop :=
  ∀ tok entries st v st2, evalHashLiteral fuel tok entries st = .ok (v, st2) → presAll st st2

def presHashPairsP (fuel : Nat) : Prop :=
  ∀ tok entries acc st res st2, evalHashPairs fuel tok entries acc st = .ok (res, st2) →
    presAll st st2

def presReqP (fuel : Nat) : Prop :=
  ∀ tok c m st v st2, evalRequireStatement fuel tok c m st = .ok (v, st2) → presAll st st2

def presEmitP (fuel : Nat) : Prop :=
  ∀ args st v st2, evalEmitStatement fuel args st = .ok (v, st2) → presAll st st2

def presEmitLoopP (fuel : Nat) : Prop :=
  ∀ args st st2, evalEmitLoop fuel args st = .ok st2 → presAll st st2

/-- The bundle of heap-preservation facts proved simultaneously over the
whole evaluator by induction on fuel. -/
def heapPresAt (fuel : Nat) : Prop :=
  presProgP fuel ∧ presStmtP fuel ∧ presLetP fuel ∧ presRetP fuel ∧
  presBlockP fuel ∧ presBlockLoopP fuel ∧ presExprP fuel ∧ presPreExprP fuel ∧
  presInfExprP fuel ∧ presLogExprP fuel ∧ presIfP fuel ∧ presCallP fuel ∧
  presExprsP fuel ∧ presIdxP fuel ∧ presArrLitP fuel ∧ presArrElemsP fuel ∧
  presHashLitP fuel ∧ presHashPairsP fuel ∧ presReqP fuel ∧ presEmitP fuel ∧
  presEmitLoopP fuel

theorem stepLet (fuel : Nat) (ihExpr : presExprP fuel) : presLetP (fuel + 1) := by
  intro n e st v st2 h
  unfold evalLetStatement at h
  cases hev : evalExpression fuel e st with
  | error err => rw [hev] at h; simp at h
  | ok p =>
    obtain ⟨v0, stA⟩ := p
    rw [hev] at h
    simp at h
    rw [← h.2]
    exact presAll_presNoCur_trans (ihExpr e st v0 stA hev) (presNoCur_envSet stA n.value v0)

theorem stepRet (fuel : Nat) (ihExpr : presExprP fuel) : presRetP (fuel + 1) := by
  intro e st v st2 h
  unfold evalReturnStatement at h
  cases hev : evalExpression fuel e st with
  | error err => rw [hev] at h; simp at h
  | ok p =>
    obtain ⟨v0, stA⟩ := p
    rw [hev] at h
    simp at h
    rw [← h.2]
    exact presAll_trans (ihExpr e st v0 stA hev) (presAll_allocSt stA)

theorem stepExprs (fuel : Nat) (ihExpr : presExprP fuel) (ihExprs : presExprsP fuel) :
    presExprsP (fuel + 1) := by
  intro es st vs st2 h
  cases es with
  | nil =>
    unfold evalExpressions at h
    simp at h
    rw [← h.2]
    exact presAll_refl st
  | cons e rest =>
    unfold evalExpressions at h
    cases hev : evalExpression fuel e st with
    | error err => rw [hev] at h; simp at h
    | ok p =>
      obtain ⟨v0, stA⟩ := p
      rw [hev] at h
      dsimp only at h
      cases hrest : evalExpressions fuel rest stA with
      | error err => rw [hrest] at h; simp at h
      | ok q =>
        obtain ⟨vs0, stB⟩ := q
        rw [hrest] at h
        simp at h
        rw [← h.2]
        exact presAll_trans (ihExpr e st v0 stA hev) (ihExprs rest stA vs0 stB hrest)

theorem stepArrElems (fuel : Nat) (ihExpr : presExprP fuel) (ihElems : presArrElemsP fuel) :
    presArrElemsP (fuel + 1) := by
  intro es st vs st2 h
  cases es with
  | nil =>
    unfold evalArrayElems at h
    simp at h
    rw [← h.2]
    exact presAll_refl st
  | cons e rest =>
    unfold evalArrayElems at h
    cases hev : evalExpression fuel e st with
    | error err => rw [hev] at h; simp at h
    | ok p =>
      obtain ⟨v0, stA⟩ := p
      rw [hev] at h
      dsimp only at h
      cases hrest : evalArrayElems fuel rest stA with
      | error err => rw [hrest] at h; simp at h
      | ok q =>
        obtain ⟨vs0, stB⟩ := q
        rw [hrest] at h
        simp at h
        rw [← h.2]
        exact presAll_trans (ihExpr e st v0 stA hev) (ihElems rest stA vs0 stB hrest)

theorem stepEmitLoop (fuel : Nat) (ihExpr : presExprP fuel) (ihLoop : presEmitLoopP fuel) :
    presEmitLoopP (fuel + 1) := by
  intro args st st2 h
  cases args with
  | nil =>
    unfold evalEmitLoop at h
    simp at h
    rw [← h]
    exact presAll_refl st
  | cons a rest =>
    unfold evalEmitLoop at h
    cases hev : evalExpression fuel a st with
    | error err => rw [hev] at h; simp at h
    | ok p =>
      obtain ⟨v0, stA⟩ := p
      rw [hev] at h
      cases v0 with
      | none => simp at h
      | some o =>
        simp at h
        exact presAll_trans (ihExpr a st (some o) stA hev) (ihLoop rest stA st2 h)

theorem stepEmit (fuel : Nat) (ihLoop : presEmitLoopP fuel) : presEmitP (fuel + 1) := by
  intro args st v st2 h
  unfold evalEmitStatement at h
  cases hl : evalEmitLoop fuel args st with
  | error err => rw [hl] at h; simp at h
  | ok stA =>
    rw [hl] at h
    simp at h
    rw [← h.2]
    exact ihLoop args st stA hl

theorem stepArrLit (fuel : Nat) (ihElems : presArrElemsP fuel) : presArrLitP (fuel + 1) := by
  intro es st v st2 h
  unfold evalArrayLiteral at h
  cases he : evalArrayElems fuel es st with
  | error err => rw [he] at h; simp at h
  | ok p =>
    obtain ⟨objs, stA⟩ := p
    rw [he] at h
    simp at h
    rw [← h.2]
    exact presAll_trans (ihElems es st objs stA he) (presAll_allocSt stA)

theorem stepHashPairs (fuel : Nat) (ihExpr : presExprP fuel) (ihPairs : presHashPairsP fuel) :
    presHashPairsP (fuel + 1) := by
  intro tok entries acc st res st2 h
  cases entries with
  | nil =>
    unfold evalHashPairs at h
    simp at h
    rw [← h.2]
    exact presAll_refl st
  | cons kv rest =>
    obtain ⟨kNode, vNode⟩ := kv
    unfold evalHashPairs at h
    cases hk : evalExpression fuel kNode st with
    | error err => rw [hk] at h; simp at h
    | ok p =>
      obtain ⟨kv0, stA⟩ := p
      rw [hk] at h
      cases kv0 with
      | none => simp at h
      | some k =>
        simp at h
        cases hh : hashKeyOf k.val with
        | none => rw [hh] at h; simp at h
        | some key =>
          rw [hh] at h
          simp at h
          cases hv : evalExpression fuel vNode stA with
          | error err => rw [hv] at h; simp at h
          | ok q =>
            obtain ⟨vv0, stB⟩ := q
            rw [hv] at h
            exact presAll_trans (ihExpr kNode st (some k) stA hk)
              (presAll_trans (ihExpr vNode stA vv0 stB hv)
                (ihPairs tok rest _ stB res st2 h))

theorem stepHashLit (fuel : Nat) (ihPairs : presHashPairsP fuel) : presHashLitP (fuel + 1) := by
  intro tok entries st v st2 h
  unfold evalHashLiteral at h
  cases he : evalHashPairs fuel tok entries [] st with
  | error err => rw [he] at h; simp at h
  | ok p =>
    obtain ⟨pairs, stA⟩ := p
    rw [he] at h
    simp at h
    rw [← h.2]
    exact presAll_trans (ihPairs tok entries [] st pairs stA he) (presAll_allocSt stA)

theorem stepIdx (fuel : Nat) (ihExpr : presExprP fuel) : presIdxP (fuel + 1) := by
  intro tok l ix st v st2 h
  unfold evalIndexExpression at h
  cases hl : evalExpression fuel l st with
  | error err => rw [hl] at h; simp at h
  | ok p =>
    obtain ⟨lv, stA⟩ := p
    rw [hl] at h
    dsimp only at h
    cases hi : evalExpression fuel ix stA with
    | error err => rw [hi] at h; simp at h
    | ok q =>
      obtain ⟨iv, stB⟩ := q
      rw [hi] at h
      simp at h
      rw [evalElementAccess_pres lv iv tok stB v st2 h]
      exact presAll_trans (ihExpr l st lv stA hl) (ihExpr ix stA iv stB hi)

theorem stepReq (fuel : Nat) (ihExpr : presExprP fuel) : presReqP (fuel + 1) := by
  intro tok c m st v st2 h
  unfold evalRequireStatement at h
  cases hc : evalExpression fuel c st with
  | error err => rw [hc] at h; simp at h
  | ok p =>
    obtain ⟨c0, stA⟩ := p
    rw [hc] at h
    dsimp only at h
    split at h
    · cases m with
      | none => simp at h
      | some m0 =>
        dsimp only at h
        cases hm : evalExpression fuel (some m0) stA with
        | error err => rw [hm] at h; simp at h
        | ok q =>
          obtain ⟨mv, stB⟩ := q
          rw [hm] at h
          dsimp only at h
          cases mv with
          | none => simp at h
          | some mo =>
            dsimp only at h
            split at h <;> simp at h
    · simp at h
      rw [← h.2]
      exact ihExpr c st c0 stA hc

theorem stepIf (fuel : Nat) (ihExpr : presExprP fuel) (ihBlock : presBlockP fuel) :
    presIfP (fuel + 1) := by
  intro c cons alt st v st2 h
  unfold evalIfExpression at h
  cases hc : evalExpression fuel c st with
  | error err => rw [hc] at h; simp at h
  | ok p =>
    obtain ⟨c0, stA⟩ := p
    rw [hc] at h
    dsimp only at h
    have hA := ihExpr c st c0 stA hc
    split at h
    · exact presAll_trans hA (ihBlock cons stA v st2 h)
    · cases alt with
      | some a => exact presAll_trans hA (ihBlock a stA v st2 h)
      | none =>
        simp at h
        rw [← h.2]
        exact hA

theorem stepPre (fuel : Nat) (ihExpr : presExprP fuel) : presPreExprP (fuel + 1) := by
  intro tok op r st v st2 h
  unfold evalPrefixExpression at h
  cases hr : evalExpression fuel r st with
  | error err => rw [hr] at h; simp at h
  | ok p =>
    obtain ⟨r0, stA⟩ := p
    rw [hr] at h
    dsimp only at h
    have hA := ihExpr r st r0 stA hr
    split at h
    · exact presAll_trans hA (evalBang_pres r0 stA v st2 h)
    · exact presAll_trans hA (evalMinus_pres r0 stA v st2 h)
    · simp at h

theorem stepInf (fuel : Nat) (ihExpr : presExprP fuel) : presInfExprP (fuel + 1) := by
  intro tok l op r st v st2 h
  unfold evalInfixExpression at h
  cases hl : evalExpression fuel l st with
  | error err => rw [hl] at h; simp at h
  | ok p =>
    obtain ⟨lv, stA⟩ := p
    rw [hl] at h
    dsimp only at h
    cases hr : evalExpression fuel r stA with
    | error err => rw [hr] at h; simp at h
    | ok q =>
      obtain ⟨rv, stB⟩ := q
      rw [hr] at h
      dsimp only at h
      have hA := ihExpr l st lv stA hl
      have hB := ihExpr r stA rv stB hr
      have hAB := presAll_trans hA hB
      repeat' split at h
      all_goals
        first
        | exact presAll_trans hAB (evalIntegerInfix_pres _ _ _ _ _ _ h)
        | exact presAll_trans hAB (evalStringInfix_pres _ _ _ _ _ _ h)
        | exact presAll_trans hAB (evalMixedConcat_pres _ _ _ _ _ _ _ h)
        | (simp at h; rw [← h.2]; exact presAll_trans hAB (presAll_allocSt stB))
        | simp at h

theorem stepLog (fuel : Nat) (ihExpr : presExprP fuel) : presLogExprP (fuel + 1) := by
  intro tok l op r st v st2 h
  unfold evalLogicalExpression at h
  dsimp only at h
  cases hl : evalExpression fuel l st with
  | error err => rw [hl] at h; simp at h
  | ok p =>
    obtain ⟨lv, stA⟩ := p
    rw [hl] at h
    dsimp only at h
    have hA := ihExpr l st lv stA hl
    cases lv with
    | none => simp at h
    | some lo =>
      dsimp only at h
      cases hval : lo.val <;> rw [hval] at h <;> (try simp at h)
      case boolV leftBool =>
        split at h
        · simp at h
          rw [← h.2]
          exact presAll_trans hA (presAll_allocSt stA)
        · split at h
          · simp at h
            rw [← h.2]
            exact presAll_trans hA (presAll_allocSt stA)
          · cases hr : evalExpression fuel r stA with
            | error err => rw [hr] at h; simp at h
            | ok q =>
              obtain ⟨rv, stB⟩ := q
              rw [hr] at h
              dsimp only at h
              have hB := ihExpr r stA rv stB hr
              cases rv with
              | none => simp at h
              | some ro =>
                dsimp only at h
                cases hrval : ro.val <;> rw [hrval] at h <;> (try simp at h)
                case boolV rightBool =>
                  split at h <;>
                    (simp at h; rw [← h.2];
                     exact presAll_trans (presAll_trans hA hB) (presAll_allocSt stB))

theorem stepBlockLoop (fuel : Nat) (ihStmt : presStmtP fuel) (ihLoop : presBlockLoopP fuel) :
    presBlockLoopP (fuel + 1) := by
  intro ss res prev st v st2 h
  cases ss with
  | nil =>
    unfold evalBlockLoop at h
    simp at h
    rw [← h.2]
    exact ⟨rfl, le_refl _, fun _ _ _ => rfl⟩
  | cons s rest =>
    unfold evalBlockLoop at h
    cases hs : evalStatement fuel s st with
    | error err => rw [hs] at h; simp at h
    | ok p =>
      obtain ⟨r, stA⟩ := p
      rw [hs] at h
      dsimp only at h
      have h1 := ihStmt s st r stA hs
      split at h
      · simp at h
        rw [← h.2]
        exact ⟨rfl, h1.2.1, fun i hi hne => h1.2.2 i hi hne⟩
      · have h2 := ihLoop rest r prev stA v st2 h
        refine ⟨h2.1, le_trans h1.2.1 h2.2.1, ?_⟩
        intro i hi hne
        have : st2.envs.get? i = stA.envs.get? i := by
          apply h2.2.2 i (lt_of_lt_of_le hi h1.2.1)
          rw [h1.1]
          exact hne
        rw [this]
        exact h1.2.2 i hi hne

theorem stepBlock (fuel : Nat) (ihLoop : presBlockLoopP fuel) : presBlockP (fuel + 1) := by
  intro b st v st2 h
  unfold evalBlockStatement at h
  dsimp only at h
  have h1 := ihLoop b.statements none st.cur _ v st2 h
  refine ⟨h1.1, ?_, ?_⟩
  · calc st.envs.length ≤ (pushEnv st st.cur []).envs.length := by simp [pushEnv]
      _ ≤ st2.envs.length := h1.2.1
  · intro i hi
    have hlt : i < (pushEnv st st.cur []).envs.length := by
      simp [pushEnv]
      omega
    have hne : i ≠ newEnvId st := by
      unfold newEnvId
      omega
    have := h1.2.2 i hlt hne
    rw [this]
    simp [pushEnv]
    rw [List.getElem?_append_left hi]

theorem stepCall (fuel : Nat) (ihExpr : presExprP fuel) (ihExprs : presExprsP fuel)
    (ihBlock : presBlockP fuel) : presCallP (fuel + 1) := by
  intro tok f args st v st2 h
  unfold evalCallExpression at h
  cases hf : evalExpression fuel f st with
  | error err => rw [hf] at h; simp at h
  | ok p =>
    obtain ⟨fv, stA⟩ := p
    rw [hf] at h
    dsimp only at h
    cases fv with
    | none => simp at h
    | some fo =>
      split at h
      · simp at h
      · rename_i fo2 heq
        injection heq with heqfo
        subst heqfo
        split at h
        case _ params body rt fenv fname heq2 =>
            cases hargs : evalExpressions fuel args stA with
            | error err => rw [hargs] at h; simp at h
            | ok q =>
              obtain ⟨argVs, stB⟩ := q
              rw [hargs] at h
              dsimp only at h
              split at h
              · simp at h
              · cases hbody : evalBlockStatement fuel body
                    { pushEnv stB fenv (buildParamStore params argVs) with cur := newEnvId stB } with
                | error err => rw [hbody] at h; simp at h
                | ok w =>
                  obtain ⟨result, stC⟩ := w
                  rw [hbody] at h
                  dsimp only at h
                  have hA := ihExpr f st (some fo) stA hf
                  have hB := ihExprs args stA argVs stB hargs
                  have hC := ihBlock body _ result stC hbody
                  have hlenB : stB.envs.length ≤ stC.envs.length := by
                    have : stB.envs.length ≤
                        ({ pushEnv stB fenv (buildParamStore params argVs) with
                            cur := newEnvId stB } : St).envs.length := by
                      simp [pushEnv]
                    exact le_trans this hC.2.1
                  have hpres : presAll st { stC with cur := stB.cur } := by
                    refine ⟨?_, ?_, ?_⟩
                    · show stB.cur = st.cur
                      rw [hB.1, hA.1]
                    · exact le_trans hA.2.1 (le_trans hB.2.1 hlenB)
                    · intro i hi
                      have hiA : i < stA.envs.length := lt_of_lt_of_le hi hA.2.1
                      have hiB : i < stB.envs.length := lt_of_lt_of_le hiA hB.2.1
                      have hiM : i <
                          ({ pushEnv stB fenv (buildParamStore params argVs) with
                              cur := newEnvId stB } : St).envs.length := by
                        simp [pushEnv]
                        omega
                      have h1 := hC.2.2 i hiM
                      have h2 : ({ pushEnv stB fenv (buildParamStore params argVs) with
                          cur := newEnvId stB } : St).envs.get? i = stB.envs.get? i := by
                        simp [pushEnv]
                        rw [List.getElem?_append_left hiB]
                      show stC.envs.get? i = st.envs.get? i
                      rw [h1, h2, hB.2.2 i hiA, hA.2.2 i hi]
                  split at h <;> (simp at h; rw [← h.2]; exact hpres)
        case _ =>
          simp at h

theorem stepExpr (fuel : Nat) (ihPre : presPreExprP fuel) (ihInf : presInfExprP fuel)
    (ihIf : presIfP fuel) (ihCall : presCallP fuel) (ihArr : presArrLitP fuel)
    (ihIdx : presIdxP fuel) (ihHash : presHashLitP fuel) : presExprP (fuel + 1) := by
  intro e st v st2 h
  cases e with
  | none => unfold evalExpression at h; simp at h
  | some ex =>
    cases ex with
    | integerLit tok n =>
      unfold evalExpression at h
      simp at h
      rw [← h.2]
      exact presAll_allocSt st
    | stringLit tok s =>
      unfold evalExpression at h
      simp at h
      rw [← h.2]
      exact presAll_allocSt st
    | booleanLit tok b =>
      unfold evalExpression at h
      simp at h
      rw [← h.2]
      exact presAll_allocSt st
    | prefixE tok op r =>
      unfold evalExpression at h
      exact ihPre tok op r st v st2 h
    | infixE tok l op r =>
      unfold evalExpression at h
      exact ihInf tok l op r st v st2 h
    | ifE tok c cons alt =>
      unfold evalExpression at h
      exact ihIf c cons alt st v st2 h
    | identifier tok nm =>
      unfold evalExpression at h
      rw [evalIdentifier_pres tok nm st v st2 h]
      exact presAll_refl st
    | callE tok fn args =>
      unfold evalExpression at h
      exact ihCall tok fn args st v st2 h
    | funcLit tok ps rt b =>
      unfold evalExpression at h
      exact evalFunctionLiteral_pres ps rt b st v st2 h
    | arrayLit tok es =>
      unfold evalExpression at h
      exact ihArr es st v st2 h
    | indexE tok l ix =>
      unfold evalExpression at h
      exact ihIdx tok l ix st v st2 h
    | hashLit tok prs =>
      unfold evalExpression at h
      exact ihHash tok prs st v st2 h
    | dotE tok l r =>
      unfold evalExpression at h
      simp at h

theorem stepStmt (fuel : Nat) (ihLet : presLetP fuel) (ihRet : presRetP fuel)
    (ihExpr : presExprP fuel) (ihBlock : presBlockP fuel) (ihReq : presReqP fuel)
    (ihEmit : presEmitP fuel) : presStmtP (fuel + 1) := by
  intro s st v st2 h
  cases s with
  | none => unfold evalStatement at h; simp at h
  | some stm =>
    cases stm with
    | letS tok n ty val =>
      unfold evalStatement at h
      exact ihLet n val st v st2 h
    | returnS tok val =>
      unfold evalStatement at h
      exact presAll_to_presNoCur (ihRet val st v st2 h)
    | exprS tok e =>
      unfold evalStatement at h
      exact presAll_to_presNoCur (ihExpr e st v st2 h)
    | blockSt b =>
      unfold evalStatement at h
      exact presAll_to_presNoCur (ihBlock b st v st2 h)
    | contractS tok n sb b =>
      unfold evalStatement evalContractStatement at h
      simp at h
    | functionS tok n ps rt b =>
      unfold evalStatement at h
      exact evalFunctionStatement_pres n ps rt b st v st2 h
    | requireS tok c m =>
      unfold evalStatement at h
      exact presAll_to_presNoCur (ihReq tok c m st v st2 h)
    | emitS tok n args =>
      unfold evalStatement at h
      exact presAll_to_presNoCur (ihEmit args st v st2 h)
    | constructorS tok ps b =>
      unfold evalStatement at h
      simp at h
    | eventS tok n ps =>
      unfold evalStatement at h
      simp at h

theorem stepProg (fuel : Nat) (ihStmt : presStmtP fuel) (ihProg : presProgP fuel) :
    presProgP (fuel + 1) := by
  intro ss st v st2 h
  cases ss with
  | nil =>
    unfold evalProgram at h
    simp at h
    rw [← h.2]
    exact presNoCur_refl st
  | cons s rest =>
    unfold evalProgram at h
    cases hs : evalStatement fuel s st with
    | error err => rw [hs] at h; simp at h
    | ok p =>
      obtain ⟨r, stA⟩ := p
      rw [hs] at h
      dsimp only at h
      have h1 := ihStmt s st r stA hs
      cases rest with
      | nil =>
        simp at h
        rw [← h.2]
        exact h1
      | cons s2 rest2 =>
        exact presNoCur_trans h1 (ihProg (s2 :: rest2) stA v st2 h)

/-- The heap-preservation bundle holds at every fuel: no evaluation step
changes a pre-existing environment entry other than (for statements) the
current one, and none changes which environment is current. -/
theorem evalHeapPres : ∀ fuel, heapPresAt fuel := by
  intro fuel
  induction fuel with
  | zero =>
    refine ⟨?_, ?_, ?_, ?_, ?_, ?_, ?_, ?_, ?_, ?_, ?_, ?_, ?_, ?_, ?_, ?_, ?_, ?_, ?_, ?_, ?_⟩
    · exact fun ss st v st2 h => by simp [evalProgram] at h
    · exact fun s st v st2 h => by simp [evalStatement] at h
    · exact fun n e st v st2 h => by simp [evalLetStatement] at h
    · exact fun e st v st2 h => by simp [evalReturnStatement] at h
    · exact fun b st v st2 h => by simp [evalBlockStatement] at h
    · exact fun ss res prev st v st2 h => by simp [evalBlockLoop] at h
    · exact fun e st v st2 h => by simp [evalExpression] at h
    · exact fun tok op r st v st2 h => by simp [evalPrefixExpression] at h
    · exact fun tok l op r st v st2 h => by simp [evalInfixExpression] at h
    · exact fun tok l op r st v st2 h => by simp [evalLogicalExpression] at h
    · exact fun c cons alt st v st2 h => by simp [evalIfExpression] at h
    · exact fun tok f args st v st2 h => by simp [evalCallExpression] at h
    · exact fun es st vs st2 h => by simp [evalExpressions] at h
    · exact fun tok l ix st v st2 h => by simp [evalIndexExpression] at h
    · exact fun es st v st2 h => by simp [evalArrayLiteral] at h
    · exact fun es st vs st2 h => by simp [evalArrayElems] at h
    · exact fun tok entries st v st2 h => by simp [evalHashLiteral] at h
    · exact fun tok entries acc st res st2 h => by simp [evalHashPairs] at h
    · exact fun tok c m st v st2 h => by simp [evalRequireStatement] at h
    · exact fun args st v st2 h => by simp [evalEmitStatement] at h
    · exact fun args st st2 h => by simp [evalEmitLoop] at h
  | succ n IH =>
    obtain ⟨ihProg, ihStmt, ihLet, ihRet, ihBlock, ihBlockLoop, ihExpr, ihPre, ihInf, ihLog,
      ihIf, ihCall, ihExprs, ihIdx, ihArr, ihArrElems, ihHash, ihHashPairs, ihReq, ihEmit,
      ihEmitLoop⟩ := IH
    exact ⟨stepProg n ihStmt ihProg, stepStmt n ihLet ihRet ihExpr ihBlock ihReq ihEmit,
      stepLet n ihExpr, stepRet n ihExpr, stepBlock n ihBlockLoop,
      stepBlockLoop n ihStmt ihBlockLoop, stepExpr n ihPre ihInf ihIf ihCall ihArr ihIdx ihHash,
      stepPre n ihExpr, stepInf n ihExpr, stepLog n ihExpr, stepIf n ihExpr ihBlock,
      stepCall n ihExpr ihExprs ihBlock, stepExprs n ihExpr ihExprs, stepIdx n ihExpr,
      stepArrLit n ihArrElems, stepArrElems n ihExpr ihArrElems, stepHashLit n ihHashPairs,
      stepHashPairs n ihExpr ihHashPairs, stepReq n ihExpr, stepEmit n ihEmitLoop,
      stepEmitLoop n ihExpr ihEmitLoop⟩

/-- C1: the claim says `&&`/`||` short-circuit, so that
`false && (1/0 > 0)` evaluates to false and `true || (1/0 > 0)` to true
without a division error.  On the code this is false: the parser registers
no prefix or infix handler and no precedence for `&&`/`||`
(`evalLogicalExpression`, which would implement short-circuiting, is
unreachable), so both programs fail at parse time with "no prefix parse
function for && found" (resp. `||`), and `Run` reports the SyntaxError
"Failed to parse program" without ever evaluating — contradicting the
repository's own TestLogicalOperators expectations. -/
theorem c1_logical_and_or_do_not_parse :
    run 99 "false && (1/0 > 0);" = .error (newSyntaxError "Failed to parse program" 0 0) ∧
    run 99 "true || (1/0 > 0);" = .error (newSyntaxError "Failed to parse program" 0 0) ∧
    (parseProgram 99 (parserNew "false && (1/0 > 0);")).2.errors =
      ["no prefix parse function for && found"] ∧
    (parseProgram 99 (parserNew "true || (1/0 > 0);")).2.errors =
      ["no prefix parse function for || found"] :=
  ⟨rfl, rfl, rfl, rfl⟩

/-- C2 (counterexample): the claim says evaluation of a program ends at a
top-level `return` and the program's value is the returned value.  On the
code `evalProgram` has no RETURN_VALUE check: `return 1; 2;` evaluates to
the Integer 2 (not 1), and in `return 1; 1 / 0;` the statement after the
return IS evaluated, aborting with the division error. -/
theorem c2_counterexample :
    run 99 "return 1; 2;" = .ok (some (.mk 3 (.intV 2))) ∧
    run 99 "return 1; 1 / 0;" = .error (newRuntimeError "Division by zero" 0 0) :=
  ⟨rfl, rfl⟩

/-- C2 (amended): a top-level `return` does NOT end evaluation: whenever a
statement (a return statement included) evaluates without error and
further statements follow, `evalProgram` continues with them and the
program's value is the value of the last statement evaluated — e.g.
`return 7; 8; 9;` evaluates to 9.  (Only `evalBlockStatement` stops at a
ReturnValue; `evalProgram` does not.) -/
theorem c2_top_level_return_does_not_halt :
    (∀ fuel s rest st r st1, rest ≠ [] →
      evalStatement fuel s st = .ok (r, st1) →
      evalProgram (fuel + 1) (s :: rest) st = evalProgram fuel rest st1) ∧
    run 99 "return 7; 8; 9;" = .ok (some (.mk 4 (.intV 9))) := by
  refine ⟨?_, rfl⟩
  intro fuel s rest st r st1 hne hs
  cases rest with
  | nil => exact absurd rfl hne
  | cons s2 rest2 => simp only [evalProgram, hs]

/-- Witness for the amended C2: a concrete top-level return followed by a
further statement; evaluation continues in the state left by the return
statement. -/
theorem c2_witness :
    evalProgram 6
      [some (.returnS ⟨.RETURN, "return", 1, 1⟩ (some (.integerLit ⟨.INT, "1", 1, 8⟩ 1))),
       some (.exprS ⟨.INT, "2", 1, 11⟩ (some (.integerLit ⟨.INT, "2", 1, 11⟩ 2)))]
      initialSt =
    evalProgram 5
      [some (.exprS ⟨.INT, "2", 1, 11⟩ (some (.integerLit ⟨.INT, "2", 1, 11⟩ 2)))]
      { envs := [{ store := [], outer := none }], cur := 0, nextId := 3 } :=
  c2_top_level_return_does_not_halt.1 5
    (some (.returnS ⟨.RETURN, "return", 1, 1⟩ (some (.integerLit ⟨.INT, "1", 1, 8⟩ 1))))
    [some (.exprS ⟨.INT, "2", 1, 11⟩ (some (.integerLit ⟨.INT, "2", 1, 11⟩ 2)))]
    initialSt
    (some (.mk 2 (.retV (some (.mk 1 (.intV 1))))))
    { envs := [{ store := [], outer := none }], cur := 0, nextId := 3 }
    (by simp) rfl

/-- C3 (counterexample): the claim says `require(condition)` with the
message omitted aborts, on a falsy condition, with a runtime error
carrying a default message.  On the code the message argument is
syntactically mandatory (`expectPeek(COMMA)` in `parseRequireStatement`):
`require(0);` is a parse error ("expected next token to be ,"), so the
run fails with a SyntaxError, not a RuntimeError. -/
theorem c3_counterexample :
    run 99 "require(0);" = .error (newSyntaxError "Failed to parse program" 0 0) ∧
    (parseProgram 99 (parserNew "require(0);")).2.errors.head? =
      some "expected next token to be ,, got ) instead" :=
  ⟨rfl, rfl⟩

/-- C3 (amended): for every `require(condition, message)` whose condition
evaluates to a falsy value and whose message evaluates to a String,
evaluation aborts with a RuntimeError carrying that String (at the
`require` token's position) — `require(false, "nope")` aborts with
message "nope"; the message argument cannot be omitted (that is a parse
error, see the counterexample), and a non-String message falls back to
the default "Requirement failed". -/
theorem c3_require_message :
    (∀ fuel tok c m st c0 st1 i s st2,
      evalExpression fuel c st = .ok (c0, st1) →
      isTruthy c0 = false →
      evalExpression fuel (some m) st1 = .ok (some (.mk i (.strV s)), st2) →
      evalRequireStatement (fuel + 1) tok c (some m) st =
        .error (newRuntimeError s tok.line tok.column)) ∧
    run 99 "require(false, \"nope\");" = .error (newRuntimeError "nope" 1 1) := by
  refine ⟨?_, rfl⟩
  intro fuel tok c m st c0 st1 i s st2 hc ht hm
  unfold evalRequireStatement
  rw [hc]
  dsimp only
  rw [ht, if_pos (show ((!false) = true) from rfl)]
  rw [hm]
  rfl

/-- Witness for the amended C3: `require` over a false condition and the
string message "nope" aborts with RuntimeError "nope". -/
theorem c3_witness :
    evalRequireStatement 6 { type := .REQUIRE, literal := "require", line := 1, column := 1 }
      (some (.booleanLit { type := .FALSE, literal := "false", line := 1, column := 9 } false))
      (some (.stringLit { type := .STRING, literal := "nope", line := 1, column := 16 } "nope"))
      initialSt =
    .error (newRuntimeError "nope" 1 1) :=
  c3_require_message.1 5
    { type := .REQUIRE, literal := "require", line := 1, column := 1 }
    (some (.booleanLit { type := .FALSE, literal := "false", line := 1, column := 9 } false))
    (.stringLit { type := .STRING, literal := "nope", line := 1, column := 16 } "nope")
    initialSt
    (some (.mk 1 (.boolV false)))
    { envs := [{ store := [], outer := none }], cur := 0, nextId := 2 }
    2 "nope"
    { envs := [{ store := [], outer := none }], cur := 0, nextId := 3 }
    rfl rfl rfl

/-- C4: for every pair of Integer operands combined with `+`: if the
decimal text of either operand begins with a leading zero digit (which,
for `%d`-formatted int64 values, happens exactly for the value 0), the
result is the String concatenation of the two decimal texts in
left-to-right operand order (`0 + 5` yields the String "05"); otherwise
the result is the Integer sum (with the host's int64 wrap-around). -/
theorem c4_integer_plus_leading_zero_concat :
    (∀ fuel tok le re st i a j b st1 st2,
      evalExpression fuel le st = .ok (some (.mk i (.intV a)), st1) →
      evalExpression fuel re st1 = .ok (some (.mk j (.intV b)), st2) →
      evalInfixExpression (fuel + 1) tok le "+" re st =
        if leadingZero (goIntStr a) || leadingZero (goIntStr b) then
          .ok (some (.mk st2.nextId (.strV (goIntStr a ++ goIntStr b))), allocSt st2)
        else
          .ok (some (.mk st2.nextId (.intV (wrap64 (a + b)))), allocSt st2)) ∧
    run 99 "0 + 5;" = .ok (some (.mk 3 (.strV "05"))) ∧
    run 99 "3 + 5;" = .ok (some (.mk 3 (.intV 8))) := by
  refine ⟨?_, rfl, rfl⟩
  intro fuel tok le re st i a j b st1 st2 hl hr
  unfold evalInfixExpression
  rw [hl]
  dsimp only
  rw [hr]
  dsimp only
  show (if leadingZero (goIntStr a) || leadingZero (goIntStr b) then
      Except.ok (some (allocObj st2 (Val.strV (goIntStr a ++ goIntStr b))), allocSt st2)
    else evalIntegerInfixExpression "+" (.mk i (.intV a)) (.mk j (.intV b)) st2) = _
  split
  · rfl
  · rfl

/-- Witness for C4: `0 + 5` (leading-zero operand) concatenates to the
String "05". -/
theorem c4_witness :
    evalInfixExpression 6 { type := .PLUS, literal := "+", line := 1, column := 3 }
      (some (.integerLit { type := .INT, literal := "0", line := 1, column := 1 } 0)) "+"
      (some (.integerLit { type := .INT, literal := "5", line := 1, column := 5 } 5))
      initialSt =
    if leadingZero (goIntStr 0) || leadingZero (goIntStr 5) then
      .ok (some (.mk 3 (.strV (goIntStr 0 ++ goIntStr 5))),
           allocSt { envs := [{ store := [], outer := none }], cur := 0, nextId := 3 })
    else
      .ok (some (.mk 3 (.intV (wrap64 (0 + 5)))),
           allocSt { envs := [{ store := [], outer := none }], cur := 0, nextId := 3 }) :=
  c4_integer_plus_leading_zero_concat.1 5
    { type := .PLUS, literal := "+", line := 1, column := 3 }
    (some (.integerLit { type := .INT, literal := "0", line := 1, column := 1 } 0))
    (some (.integerLit { type := .INT, literal := "5", line := 1, column := 5 } 5))
    initialSt 1 0 2 5
    { envs := [{ store := [], outer := none }], cur := 0, nextId := 2 }
    { envs := [{ store := [], outer := none }], cur := 0, nextId := 3 }
    rfl rfl

/-- C5: truthiness of a runtime value used as a condition of `if` or
`require`: a Boolean is truthy iff its value is true, an Integer is
truthy iff it is non-zero, and every other value kind (String, Array,
Map/Hash, Function, Null — in particular the empty String and the empty
Array) is truthy unconditionally; `evalIfExpression` branches on exactly
this predicate and a truthy condition makes `evalRequireStatement`
succeed. -/
theorem c5_truthiness :
    (∀ i b, isTruthy (some (.mk i (.boolV b))) = b) ∧
    (∀ i n, isTruthy (some (.mk i (.intV n))) = (n != 0)) ∧
    (∀ i s, isTruthy (some (.mk i (.strV s))) = true) ∧
    (∀ i es, isTruthy (some (.mk i (.arrV es))) = true) ∧
    (∀ i ps, isTruthy (some (.mk i (.hashV ps))) = true) ∧
    (∀ i params body rt env nm, isTruthy (some (.mk i (.funcV params body rt env nm))) = true) ∧
    (∀ i, isTruthy (some (.mk i .nullV)) = true) ∧
    isTruthy (some (.mk 0 (.strV ""))) = true ∧
    isTruthy (some (.mk 0 (.arrV []))) = true ∧
    (∀ fuel c cons alt st v st1,
      evalExpression fuel c st = .ok (v, st1) →
      evalIfExpression (fuel + 1) c cons alt st =
        if isTruthy v then evalBlockStatement fuel cons st1
        else match alt with
          | some a => evalBlockStatement fuel a st1
          | none => .ok (none, st1)) ∧
    (∀ fuel tok c m st v st1,
      evalExpression fuel c st = .ok (v, st1) →
      isTruthy v = true →
      evalRequireStatement (fuel + 1) tok c m st = .ok (none, st1)) := by
  refine ⟨fun _ _ => rfl, fun _ _ => rfl, fun _ _ => rfl, fun _ _ => rfl, fun _ _ => rfl,
    fun _ _ _ _ _ _ => rfl, fun _ => rfl, rfl, rfl, ?_, ?_⟩
  · intro fuel c cons alt st v st1 hc
    unfold evalIfExpression
    rw [hc]
  · intro fuel tok c m st v st1 hc ht
    unfold evalRequireStatement
    rw [hc]
    dsimp only
    rw [ht, if_neg (show ¬((!true) = true) from by simp)]

/-- Witness for C5: a true Boolean condition selects the consequence in
`evalIfExpression` and lets `evalRequireStatement` succeed. -/
theorem c5_witness :
    (evalIfExpression 6
      (some (.booleanLit { type := .TRUE, literal := "true", line := 1, column := 5 } true))
      (Block.mk { type := .LBRACE, literal := "\x7b", line := 1, column := 11 } []) none
      initialSt =
      if isTruthy (some (.mk 1 (.boolV true))) then
        evalBlockStatement 5
          (Block.mk { type := .LBRACE, literal := "\x7b", line := 1, column := 11 } [])
          { envs := [{ store := [], outer := none }], cur := 0, nextId := 2 }
      else match (none : Option Block) with
        | some a => evalBlockStatement 5 a
            { envs := [{ store := [], outer := none }], cur := 0, nextId := 2 }
        | none => .ok (none,
            { envs := [{ store := [], outer := none }], cur := 0, nextId := 2 })) ∧
    evalRequireStatement 6 { type := .REQUIRE, literal := "require", line := 1, column := 1 }
      (some (.booleanLit { type := .TRUE, literal := "true", line := 1, column := 9 } true))
      none initialSt =
      .ok (none, { envs := [{ store := [], outer := none }], cur := 0, nextId := 2 }) :=
  ⟨c5_truthiness.2.2.2.2.2.2.2.2.2.1 5
      (some (.booleanLit { type := .TRUE, literal := "true", line := 1, column := 5 } true))
      (Block.mk { type := .LBRACE, literal := "\x7b", line := 1, column := 11 } []) none
      initialSt (some (.mk 1 (.boolV true)))
      { envs := [{ store := [], outer := none }], cur := 0, nextId := 2 } rfl,
   c5_truthiness.2.2.2.2.2.2.2.2.2.2 5
      { type := .REQUIRE, literal := "require", line := 1, column := 1 }
      (some (.booleanLit { type := .TRUE, literal := "true", line := 1, column := 9 } true))
      none initialSt (some (.mk 1 (.boolV true)))
      { envs := [{ store := [], outer := none }], cur := 0, nextId := 2 } rfl rfl⟩

/-- C6: Integer division: for a non-zero divisor, `a / b` is the host's
truncating int64 quotient (wrap-around applies only at MinInt64 / -1,
as in Go); for a zero divisor it fails with the RuntimeError "Division by
zero" — an error value, never a crash or a numeric result. -/
theorem c6_division :
    (∀ i j a b st,
      (b ≠ 0 →
        evalIntegerInfixExpression "/" (.mk i (.intV a)) (.mk j (.intV b)) st =
          .ok (some (.mk st.nextId (.intV (wrap64 (a.tdiv b)))), allocSt st)) ∧
      (b = 0 →
        evalIntegerInfixExpression "/" (.mk i (.intV a)) (.mk j (.intV b)) st =
          .error (newRuntimeError "Division by zero" 0 0))) ∧
    run 99 "7 / 2;" = .ok (some (.mk 3 (.intV 3))) ∧
    run 99 "-7 / 2;" = .ok (some (.mk 4 (.intV (-3)))) ∧
    run 99 "7 / 0;" = .error (newRuntimeError "Division by zero" 0 0) := by
  refine ⟨?_, rfl, rfl, rfl⟩
  intro i j a b st
  have key : evalIntegerInfixExpression "/" (.mk i (.intV a)) (.mk j (.intV b)) st =
      if b = 0 then .error (newRuntimeError "Division by zero" 0 0)
      else .ok (some (.mk st.nextId (.intV (wrap64 (a.tdiv b)))), allocSt st) := rfl
  constructor
  · intro hb
    rw [key, if_neg hb]
  · intro hb
    rw [key, if_pos hb]

/-- Witness for C6: 7 / 2 truncates to 3, and 7 / 0 is the division
error. -/
theorem c6_witness :
    evalIntegerInfixExpression "/" (.mk 1 (.intV 7)) (.mk 2 (.intV 2)) initialSt =
      .ok (some (.mk 1 (.intV (wrap64 (Int.tdiv 7 2)))), allocSt initialSt) ∧
    evalIntegerInfixExpression "/" (.mk 1 (.intV 7)) (.mk 2 (.intV 0)) initialSt =
      .error (newRuntimeError "Division by zero" 0 0) :=
  ⟨(c6_division.1 1 2 7 2 initialSt).1 (by decide),
   (c6_division.1 1 2 7 0 initialSt).2 rfl⟩

/-- C7: collection access through the index operator: an Array indexed by
an Integer outside `0..len-1` yields the shared NULL object (not an
error); a Hash looked up with a Hashable key whose hash key is not
present yields NULL; and indexing an Array with a non-Integer value is
the RuntimeError "index operator not supported: ARRAY". -/
theorem c7_collection_access :
    (∀ i j elems idx tok st, (idx < 0 ∨ Int.ofNat elems.length - 1 < idx) →
      evalElementAccess (some (.mk i (.arrV elems))) (some (.mk j (.intV idx))) tok st =
        .ok (some NULL, st)) ∧
    (∀ i pairs k hk tok st,
      hashKeyOf k.val = some hk →
      hashLookup pairs hk = none →
      evalElementAccess (some (.mk i (.hashV pairs))) (some k) tok st = .ok (some NULL, st)) ∧
    (∀ i j elems w tok st, typeOf w ≠ "INTEGER" →
      evalElementAccess (some (.mk i (.arrV elems))) (some (.mk j w)) tok st =
        .error (newRuntimeError "index operator not supported: ARRAY" tok.line tok.column)) := by
  refine ⟨?_, ?_, ?_⟩
  · intro i j elems idx tok st hout
    have key : evalElementAccess (some (.mk i (.arrV elems))) (some (.mk j (.intV idx))) tok st =
        if (decide (idx < 0) || decide (Int.ofNat elems.length - 1 < idx)) = true then
          .ok (some NULL, st)
        else .ok ((elems.get? idx.toNat).getD none, st) := rfl
    have hcond : (decide (idx < 0) || decide (Int.ofNat elems.length - 1 < idx)) = true := by
      simp only [Bool.or_eq_true, decide_eq_true_eq]
      exact hout
    rw [key, if_pos hcond]
  · intro i pairs k hk tok st hkey hmiss
    obtain ⟨kid, kval⟩ := k
    have key : evalElementAccess (some (.mk i (.hashV pairs))) (some (.mk kid kval)) tok st =
        evalHashIndexExpression (.mk i (.hashV pairs)) (some (.mk kid kval)) tok st := rfl
    rw [key]
    unfold evalHashIndexExpression
    dsimp only [Obj.val] at hkey ⊢
    rw [hkey]
    dsimp only
    rw [hmiss]
  · intro i j elems w tok st hw
    unfold evalElementAccess
    dsimp only [Obj.val]
    rw [if_pos (show ((typeOf (Val.arrV elems) == "ARRAY") = true) from rfl)]
    rw [if_neg (show ¬((typeOf w == "INTEGER") = true) from by simp [hw])]
    rfl

/-- Witness for C7: `[1,2,3][10]` yields NULL; looking up the key "b" in
the map `{"a": 1}` yields NULL; indexing an Array with a String is the
"index operator not supported: ARRAY" error. -/
theorem c7_witness :
    evalElementAccess
      (some (.mk 4 (.arrV [some (.mk 1 (.intV 1)), some (.mk 2 (.intV 2)),
        some (.mk 3 (.intV 3))])))
      (some (.mk 5 (.intV 10))) { type := .LBRACKET, literal := "[", line := 1, column := 8 }
      initialSt = .ok (some NULL, initialSt) ∧
    evalElementAccess
      (some (.mk 3 (.hashV [({ type := "STRING", value := fnv64a (strBytes "a") },
        .mk 1 (.strV "a"), some (.mk 2 (.intV 1)))])))
      (some (.mk 4 (.strV "b"))) { type := .LBRACKET, literal := "[", line := 1, column := 9 }
      initialSt = .ok (some NULL, initialSt) ∧
    evalElementAccess (some (.mk 2 (.arrV [some (.mk 1 (.intV 1))])))
      (some (.mk 3 (.strV "x"))) { type := .LBRACKET, literal := "[", line := 2, column := 4 }
      initialSt =
      .error (newRuntimeError "index operator not supported: ARRAY" 2 4) :=
  ⟨c7_collection_access.1 4 5
      [some (.mk 1 (.intV 1)), some (.mk 2 (.intV 2)), some (.mk 3 (.intV 3))] 10
      { type := .LBRACKET, literal := "[", line := 1, column := 8 } initialSt
      (Or.inr (by decide)),
   c7_collection_access.2.1 3
      [({ type := "STRING", value := fnv64a (strBytes "a") },
        .mk 1 (.strV "a"), some (.mk 2 (.intV 1)))]
      (.mk 4 (.strV "b")) { type := "STRING", value := fnv64a (strBytes "b") }
      { type := .LBRACKET, literal := "[", line := 1, column := 9 } initialSt
      rfl rfl,
   c7_collection_access.2.2 2 3 [some (.mk 1 (.intV 1))] (.strV "x")
      { type := .LBRACKET, literal := "[", line := 2, column := 4 } initialSt
      (by decide)⟩

/-- C8: block scoping: `evalBlockStatement` runs the body in a freshly
pushed child environment and restores the previous one on exit, and on
success no pre-existing environment entry has changed — so a `let` inside
a block never mutates bindings of an enclosing scope.  Concretely (the
spec's own examples): `let x = 1; if (true) { let x = 2; x; }` evaluates
to 2, with the trailing `x` the program evaluates to 1, and a reference
to a name bound only inside an exited block is the ReferenceError
"Identifier not found: y". -/
theorem c8_block_scoping :
    (∀ fuel b st v st2, evalBlockStatement fuel b st = .ok (v, st2) →
      st2.cur = st.cur ∧ ∀ i, i < st.envs.length → st2.envs.get? i = st.envs.get? i) ∧
    run 99 "let x = 1; if (true) { let x = 2; x; }" = .ok (some (.mk 3 (.intV 2))) ∧
    run 99 "let x = 1; if (true) { let x = 2; x; } x;" = .ok (some (.mk 1 (.intV 1))) ∧
    run 99 "if (true) { let y = 20; } y;" =
      .error (newReferenceError "Identifier not found: y" 1 27) := by
  refine ⟨?_, rfl, rfl, rfl⟩
  intro fuel b st v st2 h
  have hp := (evalHeapPres fuel).2.2.2.2.1 b st v st2 h
  exact ⟨hp.1, fun i hi => hp.2.2 i hi⟩

/-- Witness for C8: a block containing `let z = 2` evaluates to 2 while
restoring the current environment and leaving the pre-existing global
environment entry untouched. -/
theorem c8_witness :
    ({ envs := [{ store := [], outer := none },
        { store := [("z", some (.mk 1 (.intV 2)))], outer := some 0 }],
       cur := 0, nextId := 2 } : St).cur = initialSt.cur ∧
    ({ envs := [{ store := [], outer := none },
        { store := [("z", some (.mk 1 (.intV 2)))], outer := some 0 }],
       cur := 0, nextId := 2 } : St).envs.get? 0 = initialSt.envs.get? 0 := by
  have h := c8_block_scoping.1 5
    (Block.mk { type := .LBRACE, literal := "\x7b", line := 1, column := 1 }
      [some (.letS { type := .LET, literal := "let", line := 1, column := 3 }
        { token := { type := .IDENT, literal := "z", line := 1, column := 7 }, value := "z" }
        none
        (some (.integerLit { type := .INT, literal := "2", line := 1, column := 11 } 2)))])
    initialSt (some (.mk 1 (.intV 2)))
    { envs := [{ store := [], outer := none },
        { store := [("z", some (.mk 1 (.intV 2)))], outer := some 0 }],
      cur := 0, nextId := 2 }
    rfl
  exact ⟨h.1, h.2 0 (by decide)⟩

/-- C9: parse errors are fatal.  The embedded parser is a total function:
malformed input is recorded in the parser's `errors` list while parsing
continues (`ParseProgram` collects diagnostics and returns a best-effort
`Program`), and whenever that list is non-empty `Run` answers the
SyntaxError "Failed to parse program" without ever calling the evaluator
(`run` tests `errors.length != 0` before `evalProgram`).  Concretely, the
malformed program `let` parses with a non-empty diagnostic list and runs
to that SyntaxError. -/
theorem c9_parse_errors_fatal :
    (∀ fuel source,
      (parseProgram fuel (parserNew source)).2.errors ≠ [] →
      run fuel source = .error (newSyntaxError "Failed to parse program" 0 0)) ∧
    (parseProgram 99 (parserNew "let")).2.errors ≠ [] ∧
    run 99 "let" = .error (newSyntaxError "Failed to parse program" 0 0) := by
  refine ⟨?_, by decide, rfl⟩
  intro fuel source hne
  cases hpp : parseProgram fuel (parserNew source) with
  | mk prog p2 =>
    rw [hpp] at hne
    dsimp only at hne
    have hlen : (p2.errors.length != 0) = true := by
      simp only [bne_iff_ne, ne_eq]
      intro h0
      exact hne (List.length_eq_zero.mp h0)
    unfold run
    dsimp only
    rw [hpp]
    dsimp only
    rw [if_pos hlen]

/-- Witness for C9: the malformed program let has a non-empty parser
diagnostic list, and running it answers the fatal SyntaxError. -/
theorem c9_witness :
    run 99 "let" = .error (newSyntaxError "Failed to parse program" 0 0) :=
  c9_parse_errors_fatal.1 99 "let" (by decide)

/-- C10: on operand pairs that are not both Integer and not both String,
`==` answers whether the two operands are the very same allocation (the
embedding of Go pointer equality `left == right` on the `object.Object`
interface values), not structural equality.  Every evaluation of a
Boolean literal allocates a fresh object, so `true == true` evaluates to
false, while `==` on one binding against itself (`let x = true; x == x`)
evaluates to true. -/
theorem c10_pointer_equality :
    (∀ fuel tok le re st li lv rj rv st1 st2,
      evalExpression fuel le st = .ok (some (.mk li lv), st1) →
      evalExpression fuel re st1 = .ok (some (.mk rj rv), st2) →
      ¬(typeOf lv = "INTEGER" ∧ typeOf rv = "INTEGER") →
      ¬(typeOf lv = "STRING" ∧ typeOf rv = "STRING") →
      evalInfixExpression (fuel + 1) tok le "==" re st =
        .ok (some (.mk st2.nextId (.boolV (li == rj))), allocSt st2)) ∧
    run 99 "true == true;" = .ok (some (.mk 3 (.boolV false))) ∧
    run 99 "let x = true; x == x;" = .ok (some (.mk 2 (.boolV true))) := by
  refine ⟨?_, rfl, rfl⟩
  intro fuel tok le re st li lv rj rv st1 st2 hl hr hni hns
  unfold evalInfixExpression
  rw [hl]
  dsimp only
  rw [hr]
  dsimp only [Obj.val, Obj.id]
  cases lv <;> cases rv
  case intV.intV => exact absurd ⟨rfl, rfl⟩ hni
  case strV.strV => exact absurd ⟨rfl, rfl⟩ hns
  all_goals rfl

/-- Witness for C10: two separately evaluated `true` literals allocate
ids 1 and 2 starting from the initial state, and `==` on the two fresh
objects yields false. -/
theorem c10_witness :
    evalInfixExpression 6 { type := .EQ, literal := "==", line := 1, column := 6 }
      (some (.booleanLit { type := .TRUE, literal := "true", line := 1, column := 1 } true)) "=="
      (some (.booleanLit { type := .TRUE, literal := "true", line := 1, column := 9 } true))
      initialSt =
      .ok (some (.mk 3 (.boolV false)),
        { envs := [{ store := [], outer := none }], cur := 0, nextId := 4 }) :=
  c10_pointer_equality.1 5
    { type := .EQ, literal := "==", line := 1, column := 6 }
    (some (.booleanLit { type := .TRUE, literal := "true", line := 1, column := 1 } true))
    (some (.booleanLit { type := .TRUE, literal := "true", line := 1, column := 9 } true))
    initialSt 1 (.boolV true) 2 (.boolV true)
    { envs := [{ store := [], outer := none }], cur := 0, nextId := 2 }
    { envs := [{ store := [], outer := none }], cur := 0, nextId := 3 }
    rfl rfl (by decide) (by decide)
